import Mathlib

/-!
Shallow embedding of the invoice-processor backend (validation service,
mismatch resolution, pdf-parser persistence tail, email polling) together
with proofs about the embedded operations.

Conventions of the embedding:
* database rows are Lean structures; nullable columns are `Option` fields;
* uuid identifiers are modelled by a `nextId : Nat` counter in the state;
* dates and datetimes are modelled as integers (day or timestamp ordinals);
  an unparseable stored date is modelled directly as `none`, matching the
  Python code that maps parse failures to `None`;
* numeric prices are rationals;
* Python truthiness of a nullable string / numeric field is `truthyS` /
  `truthyQ` (None and the empty string / zero are falsy);
* storage calls always succeed except where the source raises on bad data,
  which is modelled by `Option` results;
* audit entries keep only the pair (entity type, action); timestamps and
  free-text details carried by audit rows, and the bookkeeping columns
  `created_at` / `updated_at`, are not modelled because no modelled control
  flow reads them.
-/

namespace InvoiceProc

/-- Validation status of one invoice line (`invoice_lines.status`). -/
inductive LineStatus
  | matched
  | mismatch
  | createdPriceRecord
  | unknown
  | noMatch
  deriving DecidableEq, Repr

/-- Invoice lifecycle status (`invoices.status`). -/
inductive InvStatus
  | received
  | parsed
  | validated
  | needsReview
  | disputed
  | pending
  deriving DecidableEq, Repr

/-- One row of `buying_price_records`.  The validation service writes the
`supplier_name`/`sku`/`unit_price`/`status` shaped columns; the mismatch
resolution service writes the `product_id`/`supplier_id`/`price` shaped
columns of the same table, leaving the others null. -/
structure PriceRecord where
  rid : Nat := 0
  supplier_name : Option String := none
  sku : Option String := none
  product_name : Option String := none
  currency : Option String := none
  unit_price : Option Rat := none
  status : Option String := none
  valid_from : Option Int := none
  valid_to : Option Int := none
  source : Option String := none
  product_id : Option Nat := none
  supplier_id : Option Nat := none
  price : Option Rat := none
  deriving DecidableEq, Repr

/-- One row of `invoice_lines`. -/
structure InvoiceLine where
  lid : Nat := 0
  invoice_id : Nat := 0
  line_no : Nat := 0
  sku : Option String := none
  product_name : Option String := none
  unit_price : Option Rat := none
  currency : Option String := none
  status : Option LineStatus := none
  deriving DecidableEq, Repr

/-- One row of `invoices`.  `supplier_name` is written by the extraction
path; the separate `supplier` column is written by the manual-creation
endpoint and is the one read by `accept_price`. -/
structure Invoice where
  iid : Nat := 0
  source_message_id : Option String := none
  storage_path : Option String := none
  supplier_name : Option String := none
  supplier : Option String := none
  invoice_number : Option String := none
  invoice_date : Option Int := none
  currency : Option String := none
  status : InvStatus := .received
  parsed_at : Option Int := none
  validated_at : Option Int := none
  deriving DecidableEq, Repr

/-- One row of `audit_log`, reduced to the entity type and the action. -/
structure AuditEntry where
  entity_type : String := ""
  action : String := ""
  deriving DecidableEq, Repr

/-- The persistent store.  `suppliers` and `product_mappings` back the two
spec-modelled lookups used by `accept_price` (see below). -/
structure DB where
  invoices : List Invoice := []
  lines : List InvoiceLine := []
  records : List PriceRecord := []
  audit : List AuditEntry := []
  suppliers : List (String × Nat) := []
  product_mappings : List (Nat × String × Nat) := []
  nextId : Nat := 0
  deriving DecidableEq, Repr

/-- Python truthiness of a nullable string: `None` and `""` are falsy. -/
def truthyS : Option String → Bool
  | some s => !(s == "")
  | none => false

/-- Python truthiness of a nullable numeric: `None` and `0` are falsy. -/
def truthyQ : Option Rat → Bool
  | some q => !(q == 0)
  | none => false

/-! ## Validation service (`validation_service.py`) -/

/-- The query of `_find_buying_price_by_sku`: filter `buying_price_records`
by supplier name, sku and `status = "active"`. -/
def sku_candidates (records : List PriceRecord) (supplier_name sku : String) :
    List PriceRecord :=
  records.filter fun r =>
    r.supplier_name == some supplier_name && r.sku == some sku &&
      r.status == some "active"

/-- Validity-window check applied to one candidate when the invoice date is
known: `(valid_from is None or valid_from <= invoice_date) and
(valid_to is None or invoice_date <= valid_to)`. -/
def date_ok (invoice_date : Int) (r : PriceRecord) : Bool :=
  (match r.valid_from with
    | none => true
    | some vf => decide (vf ≤ invoice_date)) &&
  (match r.valid_to with
    | none => true
    | some vt => decide (invoice_date ≤ vt))

/-- The date filter of both find helpers: applied only when the invoice
date is present. -/
def date_filter (invoice_date : Option Int) (candidates : List PriceRecord) :
    List PriceRecord :=
  match invoice_date with
  | some d => candidates.filter (date_ok d)
  | none => candidates

/-- `_find_buying_price_by_sku`. -/
def find_buying_price_by_sku (records : List PriceRecord)
    (supplier_name : Option String) (sku : String) (invoice_date : Option Int) :
    Option PriceRecord :=
  if !truthyS supplier_name || sku == "" then none
  else (date_filter invoice_date
    (sku_candidates records (supplier_name.getD "") sku)).head?

/-- The query of `_find_buying_price_by_product_name`: filter by supplier
name and `status = "active"` only (the name match is done afterwards). -/
def name_candidates (records : List PriceRecord) (supplier_name : String) :
    List PriceRecord :=
  records.filter fun r =>
    r.supplier_name == some supplier_name && r.status == some "active"

/-- The in-Python case-insensitive product-name filter of
`_find_buying_price_by_product_name`. -/
def name_match_filter (product_name : String) (candidates : List PriceRecord) :
    List PriceRecord :=
  candidates.filter fun r =>
    truthyS r.product_name &&
      (r.product_name.getD "").toLower == product_name.toLower

/-- `_find_buying_price_by_product_name`. -/
def find_buying_price_by_product_name (records : List PriceRecord)
    (supplier_name : Option String) (product_name : String)
    (invoice_date : Option Int) : Option PriceRecord :=
  if !truthyS supplier_name || product_name == "" then none
  else (date_filter invoice_date
    (name_match_filter product_name
      (name_candidates records (supplier_name.getD "")))).head?

/-- The dedup query of `_create_buying_price_record`: records with the same
supplier name and sku and `status = "need_review"`. -/
def need_review_candidates (records : List PriceRecord)
    (supplier_name : String) (sku : Option String) : List PriceRecord :=
  records.filter fun r =>
    r.supplier_name == some supplier_name && r.sku == sku &&
      r.status == some "need_review"

/-- `_create_buying_price_record`: dedup against an existing need_review
record with the same sku, otherwise insert a new learned record. -/
def create_buying_price_record (db : DB) (supplier_name : String)
    (sku product_name : Option String) (currency : String) (unit_price : Rat)
    (valid_from : Option Int) : Nat × DB :=
  match (if truthyS sku then
      (need_review_candidates db.records supplier_name sku).head?
    else none) with
  | some r => (r.rid, db)
  | none =>
    let nr : PriceRecord :=
      { rid := db.nextId, supplier_name := some supplier_name, sku := sku,
        product_name := product_name, currency := some currency,
        unit_price := some unit_price, status := some "need_review",
        valid_from := valid_from, valid_to := none,
        source := some "learned_from_invoice" }
    (db.nextId, { db with records := db.records ++ [nr],
                          nextId := db.nextId + 1 })

/-- The learned record built by `_create_buying_price_record` when no
need_review duplicate exists. -/
def learned_record (db : DB) (supplier_name : String)
    (sku product_name : Option String) (currency : String) (unit_price : Rat)
    (valid_from : Option Int) : PriceRecord :=
  { rid := db.nextId, supplier_name := some supplier_name, sku := sku,
    product_name := product_name, currency := some currency,
    unit_price := some unit_price, status := some "need_review",
    valid_from := valid_from, valid_to := none,
    source := some "learned_from_invoice" }

/-- Append one price record and advance the identity counter. -/
def learned_insert (db : DB) (nr : PriceRecord) : DB :=
  { db with records := db.records ++ [nr], nextId := db.nextId + 1 }

/-- Point update performed by `_update_invoice_line_status` on one row. -/
def set_line_status (invoice_line_id : Nat) (status : LineStatus)
    (l : InvoiceLine) : InvoiceLine :=
  if l.lid == invoice_line_id then { l with status := some status } else l

/-- `_update_invoice_line_status`. -/
def update_invoice_line_status (db : DB) (invoice_line_id : Nat)
    (status : LineStatus) : DB :=
  { db with lines := db.lines.map (set_line_status invoice_line_id status) }

/-- `_update_invoice_status`: the `validated_at` column is included in the
update payload only when the passed value is truthy. -/
def update_invoice_status (db : DB) (invoice_id : Nat) (status : InvStatus)
    (validated_at : Option Int) : DB :=
  { db with invoices := db.invoices.map fun i =>
      if i.iid == invoice_id then
        match validated_at with
        | some t => { i with status := status, validated_at := some t }
        | none => { i with status := status }
      else i }

/-- The row transformation `_update_invoice_status` applies to the
matching invoice row. -/
def apply_validated_update (status : InvStatus) (validated_at : Option Int)
    (i : Invoice) : Invoice :=
  match validated_at with
  | some t => { i with status := status, validated_at := some t }
  | none => { i with status := status }

/-- `_log_audit` (and the audit insert helpers of the other services). -/
def log_audit (db : DB) (entity_type action : String) : DB :=
  { db with audit := db.audit ++ [{ entity_type := entity_type,
                                    action := action }] }

/-- `line.get("currency") or invoice_currency`. -/
def line_currency_of (line : InvoiceLine) (invoice_currency : Option String) :
    Option String :=
  if truthyS line.currency then line.currency else invoice_currency

/-- The part of `_validate_invoice_line` after the price-book lookup:
either learn a price record or compare against the found reference.  A
found record whose `unit_price` column is null makes the Python code raise
(float of None), modelled as `none`. -/
def resolve_found (db : DB) (line : InvoiceLine)
    (supplier_name : Option String) (invoice_date : Option Int)
    (invoice_currency : Option String) (found : Option PriceRecord) :
    Option (LineStatus × DB) :=
  match found with
  | none =>
    if truthyS supplier_name && (truthyS line.sku || truthyS line.product_name)
        && truthyS (line_currency_of line invoice_currency)
        && truthyQ line.unit_price then
      let created := create_buying_price_record db (supplier_name.getD "")
        line.sku line.product_name
        ((line_currency_of line invoice_currency).getD "")
        (line.unit_price.getD 0) invoice_date
      some (.createdPriceRecord,
        log_audit (update_invoice_line_status created.2 line.lid
          .createdPriceRecord) "buying_price_record" "PRICE_RECORD_CREATED")
    else
      some (.unknown,
        log_audit (update_invoice_line_status db line.lid .unknown)
          "invoice" "MARKED_NEED_REVIEW")
  | some rec =>
    match rec.unit_price with
    | none => none
    | some expected =>
      if truthyQ line.unit_price then
        if |line.unit_price.getD 0 - expected| < (1 : Rat)/10000 then
          some (.matched, update_invoice_line_status db line.lid .matched)
        else
          some (.mismatch,
            log_audit (update_invoice_line_status db line.lid .mismatch)
              "invoice_line" "PRICE_MISMATCH")
      else
        some (.unknown, update_invoice_line_status db line.lid .unknown)

/-- `_validate_invoice_line`: sku-first key selection, then lookup, then
`resolve_found`. -/
def validate_invoice_line (db : DB) (line : InvoiceLine)
    (supplier_name : Option String) (invoice_date : Option Int)
    (invoice_currency : Option String) : Option (LineStatus × DB) :=
  if truthyS line.sku then
    resolve_found db line supplier_name invoice_date invoice_currency
      (find_buying_price_by_sku db.records supplier_name (line.sku.getD "")
        invoice_date)
  else if truthyS line.product_name then
    resolve_found db line supplier_name invoice_date invoice_currency
      (find_buying_price_by_product_name db.records supplier_name
        (line.product_name.getD "") invoice_date)
  else
    some (.unknown,
      log_audit (update_invoice_line_status db line.lid .unknown)
        "invoice" "MARKED_NEED_REVIEW")

/-- The four per-line counters of `validate_invoice`. -/
structure Counts where
  match_count : Nat := 0
  mismatch_count : Nat := 0
  created_price_record_count : Nat := 0
  no_match_count : Nat := 0
  deriving DecidableEq, Repr

/-- The `if/elif` counter update of the `validate_invoice` loop; an
`unknown` line increments `no_match_count`. -/
def bump (c : Counts) : LineStatus → Counts
  | .matched => { c with match_count := c.match_count + 1 }
  | .mismatch => { c with mismatch_count := c.mismatch_count + 1 }
  | .createdPriceRecord =>
      { c with created_price_record_count := c.created_price_record_count + 1 }
  | .unknown => { c with no_match_count := c.no_match_count + 1 }
  | .noMatch => c

/-- The per-line loop of `validate_invoice`. -/
def validate_lines (db : DB) (supplier_name : Option String)
    (invoice_date : Option Int) (invoice_currency : Option String) :
    List InvoiceLine → Option (Counts × DB)
  | [] => some ({ match_count := 0, mismatch_count := 0,
                  created_price_record_count := 0, no_match_count := 0 }, db)
  | l :: ls =>
    match validate_invoice_line db l supplier_name invoice_date
        invoice_currency with
    | none => none
    | some (st, db1) =>
      match validate_lines db1 supplier_name invoice_date invoice_currency ls
          with
      | none => none
      | some (c, db2) => some (bump c st, db2)

/-- Insertion step of the `order("line_no")` model. -/
def insert_by_line_no (l : InvoiceLine) :
    List InvoiceLine → List InvoiceLine
  | [] => [l]
  | x :: xs =>
    if l.line_no < x.line_no then l :: x :: xs else x :: insert_by_line_no l xs

/-- The `order("line_no")` of the invoice-lines query. -/
def sort_by_line_no : List InvoiceLine → List InvoiceLine
  | [] => []
  | x :: xs => insert_by_line_no x (sort_by_line_no xs)

/-- The invoice-lines query of `validate_invoice`: all lines of the
invoice, ordered by line number. -/
def lines_of (db : DB) (invoice_id : Nat) : List InvoiceLine :=
  sort_by_line_no (db.lines.filter fun l => l.invoice_id == invoice_id)

/-- The invoice query: first row with the given identity. -/
def find_invoice (db : DB) (invoice_id : Nat) : Option Invoice :=
  (db.invoices.filter fun i => i.iid == invoice_id).head?

/-- The summary dictionary returned by `validate_invoice`. -/
structure ValidationSummary where
  status : InvStatus
  total_lines : Nat
  match_count : Nat
  mismatch_count : Nat
  created_price_record_count : Nat
  no_match_count : Nat
  validated_at : Option Int := none
  deriving DecidableEq, Repr

/-- `validate_invoice`: look the invoice up (raising when absent), handle
the zero-line case, otherwise validate every line, derive the overall
status, and persist it (`validated_at` only in the validated case). -/
def validate_invoice (db : DB) (invoice_id : Nat) (now : Int) :
    Option (ValidationSummary × DB) :=
  match find_invoice db invoice_id with
  | none => none
  | some invoice =>
    let ls := lines_of db invoice_id
    if ls.isEmpty then
      let db1 := log_audit
        (update_invoice_status db invoice_id .needsReview none)
        "invoice" "MARKED_NEED_REVIEW"
      some ({ status := .needsReview, total_lines := 0, match_count := 0,
              mismatch_count := 0, created_price_record_count := 0,
              no_match_count := 0, validated_at := none }, db1)
    else
      match validate_lines db invoice.supplier_name invoice.invoice_date
          invoice.currency ls with
      | none => none
      | some (c, db1) =>
        let overall : InvStatus :=
          if c.mismatch_count > 0 || c.created_price_record_count > 0 ||
              c.no_match_count > 0 then .needsReview else .validated
        let validated_at : Option Int :=
          if overall == InvStatus.validated then some now else none
        let db2 := log_audit
          (update_invoice_status db1 invoice_id overall validated_at)
          "invoice" "INVOICE_VALIDATED"
        some ({ status := overall, total_lines := ls.length,
                match_count := c.match_count,
                mismatch_count := c.mismatch_count,
                created_price_record_count := c.created_price_record_count,
                no_match_count := c.no_match_count,
                validated_at := validated_at }, db2)

/-! ## Mismatch resolution service (`mismatch_resolution.py`) -/

/-- Modelled from the spec: `get_supplier_id_by_name` is called by
`accept_price` but is not defined anywhere under the sources; per the spec
the supplier must resolve via the matching machinery and the call must
fail with NotFound when the supplier is absent.  An absent (`None`)
supplier name therefore resolves to `none`. -/
def get_supplier_id_by_name (db : DB) (name : Option String) : Option Nat :=
  match name with
  | none => none
  | some n => ((db.suppliers.filter fun p => p.1 == n).head?).map (fun p => p.2)

/-- Modelled from the spec: `find_product_by_sku` is called by
`accept_price` but is not defined anywhere under the sources; per the spec
the (supplier, sku) pair must resolve to a product identity and the call
must fail with NotFound when the mapping is absent. -/
def find_product_by_sku (db : DB) (sku : Option String) (supplier_id : Nat) :
    Option Nat :=
  match sku with
  | none => none
  | some k =>
    ((db.product_mappings.filter fun t =>
        t.1 == supplier_id && t.2.1 == k).head?).map (fun t => t.2.2)

/-- `_close_old_price_record`: every record of the (product, supplier)
pair whose `valid_to` is null gets `valid_to = valid_from`. -/
def close_old_price_record (db : DB) (product_id supplier_id : Nat)
    (valid_from : Int) : DB :=
  { db with records := db.records.map fun r =>
      if r.product_id == some product_id && r.supplier_id == some supplier_id
          && r.valid_to == none
      then { r with valid_to := some valid_from } else r }

/-- The storage writes of `accept_price` between the lookups and the
revalidation: close the open records, insert the one new open record,
audit the acceptance. -/
def accept_price_writes (db : DB) (product_id supplier_id : Nat)
    (new_price : Rat) (valid_from : Int) : DB :=
  let db1 := close_old_price_record db product_id supplier_id valid_from
  let nr : PriceRecord :=
    { rid := db1.nextId, product_id := some product_id,
      supplier_id := some supplier_id, price := some new_price,
      valid_from := some valid_from, valid_to := none }
  log_audit { db1 with records := db1.records ++ [nr],
                       nextId := db1.nextId + 1 }
    "buying_price_records" "price_acceptance"

/-- `accept_price`: resolve line, supplier (via the joined invoice row,
read through its `supplier` column) and product, perform the price-book
writes, then re-run `validate_invoice` on the owning invoice.  Returns the
accepted price and effective date together with the final state. -/
def accept_price (db : DB) (invoice_line_id : Nat) (new_price : Rat)
    (valid_from : Int) (now : Int) : Option (Rat × Int × DB) :=
  match (db.lines.filter fun l => l.lid == invoice_line_id).head? with
  | none => none
  | some line =>
    let supplier_name := (find_invoice db line.invoice_id).bind Invoice.supplier
    match get_supplier_id_by_name db supplier_name with
    | none => none
    | some supplier_id =>
      match find_product_by_sku db line.sku supplier_id with
      | none => none
      | some product_id =>
        let db2 := accept_price_writes db product_id supplier_id new_price
          valid_from
        match validate_invoice db2 line.invoice_id now with
        | none => none
        | some (_, db3) => some (new_price, valid_from, db3)

/-- Point update performed by the dispute loop on one line row. -/
def set_line_no_match (invoice_line_id : Nat) (l : InvoiceLine) :
    InvoiceLine :=
  if l.lid == invoice_line_id then { l with status := some .noMatch } else l

/-- `dispute_invoice`: set the invoice to disputed, set each targeted line
to `no_match` when line identities were given, audit the dispute.  An
absent target list and an empty one behave alike (`if line_ids:`). -/
def dispute_invoice (db : DB) (invoice_id : Nat) (line_ids : List Nat) : DB :=
  let db1 := { db with invoices := db.invoices.map fun i =>
      if i.iid == invoice_id then { i with status := .disputed } else i }
  let db2 := if line_ids.isEmpty then db1
    else { db1 with lines :=
      line_ids.foldl (fun ls lid => ls.map (set_line_no_match lid)) db1.lines }
  log_audit db2 "invoices" "invoice_dispute"

/-! ## PDF parser persistence tail (`pdf_parser.py`) -/

/-- One cleaned extracted line, reduced to the columns the persisted line
row carries in this model. -/
structure RawLine where
  line_no : Nat := 0
  sku : Option String := none
  product_name : Option String := none
  unit_price : Option Rat := none
  currency : Option String := none
  deriving DecidableEq, Repr

/-- The line row built by `_replace_invoice_lines` for one cleaned line:
fresh identity, parent invoice, `status = None`. -/
def to_line_record (invoice_id fresh_id : Nat) (r : RawLine) : InvoiceLine :=
  { lid := fresh_id, invoice_id := invoice_id, line_no := r.line_no,
    sku := r.sku, product_name := r.product_name,
    unit_price := r.unit_price, currency := r.currency, status := none }

/-- `_replace_invoice_lines`: delete all lines of the invoice, then insert
each cleaned line independently; `insert_ok i` tells whether the storage
insert of the i-th line succeeds.  Returns the number of successful
inserts. -/
def replace_invoice_lines (db : DB) (invoice_id : Nat) (lines : List RawLine)
    (insert_ok : Nat → Bool) : Nat × DB :=
  let db1 := { db with
    lines := db.lines.filter fun l => !(l.invoice_id == invoice_id) }
  if lines.isEmpty then (0, db1)
  else
    let recs := ((List.range lines.length).zip lines).map fun p =>
      to_line_record invoice_id (db1.nextId + p.1) p.2
    let okRecs := ((List.range recs.length).zip recs).filterMap fun p =>
      if insert_ok p.1 then some p.2 else none
    (okRecs.length, { db1 with lines := db1.lines ++ okRecs,
                               nextId := db1.nextId + recs.length })

/-- `_update_invoice_status_to_parsed`. -/
def update_invoice_status_to_parsed (db : DB) (invoice_id : Nat) (now : Int) :
    DB :=
  { db with invoices := db.invoices.map fun i =>
      if i.iid == invoice_id then
        { i with status := .parsed, parsed_at := some now }
      else i }

/-- The persistence tail of `parse_invoice` after extraction and cleaning:
replace the lines, move the invoice to parsed only when at least one line
was inserted, audit the parse. -/
def parse_invoice_persist (db : DB) (invoice_id : Nat) (cleaned : List RawLine)
    (insert_ok : Nat → Bool) (now : Int) : Nat × DB :=
  let replaced := replace_invoice_lines db invoice_id cleaned insert_ok
  if replaced.1 > 0 then
    (replaced.1, log_audit (update_invoice_status_to_parsed replaced.2
      invoice_id now) "invoice" "INVOICE_PARSED")
  else
    (replaced.1, log_audit replaced.2 "invoice" "INVOICE_PARSED")

/-! ## Email polling service (`email_polling.py`) -/

/-- One mail attachment as listed by the provider; `storage_path` is set
once the PDF was stored to the bucket. -/
structure Attachment where
  aid : String := ""
  name : String := ""
  contentType : String := ""
  size : Nat := 0
  storage_path : Option String := none
  deriving DecidableEq, Repr

/-- One provider message. -/
structure MailMessage where
  mid : String := ""
  isRead : Bool := false
  hasAttachments : Bool := false
  attachments : List Attachment := []
  deriving DecidableEq, Repr

/-- The provider mailbox. -/
structure MailState where
  messages : List MailMessage := []
  deriving DecidableEq, Repr

/-- `mark_emails_as_read`: the PATCH body of the source sets the provider
flag with `{"isRead": False}`, so the message is marked unread. -/
def mark_emails_as_read (ms : MailState) (message_id : String) : MailState :=
  { ms with messages := ms.messages.map fun m =>
      if m.mid == message_id then { m with isRead := false } else m }

/-- `fetch_emails`: unread messages (provider filter `isRead eq false`),
then filtered in code to those with attachments, limited to the batch
size.  The newest-first ordering is not modelled. -/
def fetch_emails (ms : MailState) (max_emails : Nat) : List MailMessage :=
  (((ms.messages.filter fun m => !m.isRead).filter
    fun m => m.hasAttachments).take max_emails)

/-- The PDF filter of `get_email_attachments`. -/
def pdf_attachments (atts : List Attachment) : List Attachment :=
  atts.filter fun a =>
    a.contentType == "application/pdf" || a.name.toLower.endsWith ".pdf"

/-- `insert_invoice` of the polling service: new invoice row with the
source message reference and `status = received`. -/
def insert_invoice (db : DB) (source_message_id storage_path : String) :
    Nat × DB :=
  let inv : Invoice :=
    { iid := db.nextId, source_message_id := some source_message_id,
      storage_path := some storage_path, status := .received }
  (db.nextId, { db with invoices := db.invoices ++ [inv],
                        nextId := db.nextId + 1 })

/-- State threaded through one polling run. -/
structure PollState where
  mail : MailState := {}
  db : DB := {}
  processed : List String := []
  max_pdf_size : Nat := 0
  deriving Repr

/-- `process_email`: in-run dedup, first PDF attachment, size ceiling,
invoice insert, audits, then `mark_emails_as_read` and the dedup-set
update.  Returns whether the message was processed. -/
def process_email (st : PollState) (m : MailMessage) : Bool × PollState :=
  if st.processed.contains m.mid then (false, st)
  else
    match (pdf_attachments m.attachments).head? with
    | none => (false, st)
    | some att =>
      match att.storage_path with
      | none => (false, st)
      | some path =>
        if att.size > st.max_pdf_size then (false, st)
        else
          let inserted := insert_invoice st.db m.mid path
          let db2 := log_audit (log_audit inserted.2 "invoice"
            "EMAIL_INGESTED") "invoice" "PDF_STORED"
          let mail1 := mark_emails_as_read st.mail m.mid
          (true, { st with db := db2, mail := mail1,
                           processed := st.processed ++ [m.mid] })

/-! ## Derived observation functions and relations used by the proofs -/

/-- The active slice of the price book; the two find helpers read the
price book only through this slice. -/
def active_of (records : List PriceRecord) : List PriceRecord :=
  records.filter fun r => r.status == some "active"

/-- Two line rows that agree on every column except `status`. -/
def same_core (a b : InvoiceLine) : Prop :=
  a.lid = b.lid ∧ a.invoice_id = b.invoice_id ∧ a.line_no = b.line_no ∧
  a.sku = b.sku ∧ a.product_name = b.product_name ∧
  a.unit_price = b.unit_price ∧ a.currency = b.currency

/-- The new price book extends the old one by learned records only
(appended, `status = need_review`, no product/supplier identity columns). -/
def rec_ext (old new : List PriceRecord) : Prop :=
  ∃ extra, new = old ++ extra ∧ ∀ r ∈ extra,
    r.status = some "need_review" ∧ r.product_id = none ∧
    r.supplier_id = none ∧ r.source = some "learned_from_invoice"

/-- Pure status component of `resolve_found`. -/
def resolve_status_found (line : InvoiceLine) (supplier_name : Option String)
    (invoice_currency : Option String) (found : Option PriceRecord) :
    Option LineStatus :=
  match found with
  | none =>
    if truthyS supplier_name && (truthyS line.sku || truthyS line.product_name)
        && truthyS (line_currency_of line invoice_currency)
        && truthyQ line.unit_price then
      some .createdPriceRecord
    else some .unknown
  | some rec =>
    match rec.unit_price with
    | none => none
    | some expected =>
      if truthyQ line.unit_price then
        if |line.unit_price.getD 0 - expected| < (1 : Rat)/10000 then
          some .matched
        else some .mismatch
      else some .unknown

/-- Pure status component of `validate_invoice_line`. -/
def resolve_status (records : List PriceRecord) (line : InvoiceLine)
    (supplier_name : Option String) (invoice_date : Option Int)
    (invoice_currency : Option String) : Option LineStatus :=
  if truthyS line.sku then
    resolve_status_found line supplier_name invoice_currency
      (find_buying_price_by_sku records supplier_name (line.sku.getD "")
        invoice_date)
  else if truthyS line.product_name then
    resolve_status_found line supplier_name invoice_currency
      (find_buying_price_by_product_name records supplier_name
        (line.product_name.getD "") invoice_date)
  else some .unknown

/-- Folding the per-line counter update over a list of line statuses. -/
def count_statuses (sts : List LineStatus) : Counts :=
  sts.foldr (fun st acc => bump acc st)
    { match_count := 0, mismatch_count := 0,
      created_price_record_count := 0, no_match_count := 0 }

/-- Sequence of line-status point writes applied to the line table. -/
def apply_status_writes : List (Nat × LineStatus) → List InvoiceLine →
    List InvoiceLine
  | [], lines => lines
  | w :: ws, lines => apply_status_writes ws (lines.map (set_line_status w.1 w.2))

/-- The same sequence of point writes applied to one row. -/
def apply_writes_line (ws : List (Nat × LineStatus)) (l : InvoiceLine) :
    InvoiceLine :=
  ws.foldl (fun x w => set_line_status w.1 w.2 x) l

/-- Last status written for a given line identity by a write sequence. -/
def last_write : List (Nat × LineStatus) → Nat → Option LineStatus
  | [], _ => none
  | w :: ws, lid =>
    match last_write ws lid with
    | some st => some st
    | none => if w.1 == lid then some w.2 else none

/-! ## Concrete fixtures for witnesses and counterexamples -/

/-- Active reference price: supplier S, sku A, unit price 10, window
[0, 10]. -/
def fxRecA : PriceRecord :=
  { rid := 0, supplier_name := some "S", sku := some "A",
    status := some "active", unit_price := some 10, valid_from := some 0,
    valid_to := some 10 }

/-- Parsed invoice of supplier S dated 5. -/
def fxInv : Invoice :=
  { iid := 1, supplier_name := some "S", currency := some "EUR",
    status := .parsed, invoice_date := some 5 }

/-- Line matching the reference price. -/
def fxLineA : InvoiceLine :=
  { lid := 1, invoice_id := 1, line_no := 1, sku := some "A",
    unit_price := some 10 }

/-- Line with an unknown sku B. -/
def fxLineB : InvoiceLine :=
  { lid := 2, invoice_id := 1, line_no := 2, sku := some "B",
    unit_price := some 20 }

/-- Second line with the same unknown sku B. -/
def fxLineB2 : InvoiceLine :=
  { lid := 3, invoice_id := 1, line_no := 3, sku := some "B",
    unit_price := some 20 }

/-- State of the section 8 scenario of the spec: lines A and B, active
price only for A. -/
def fxDb : DB :=
  { invoices := [fxInv], lines := [fxLineA, fxLineB], records := [fxRecA],
    nextId := 100 }

/-- State with only the matching line A. -/
def fxDbA : DB := { invoices := [fxInv], lines := [fxLineA], records := [fxRecA] }

/-- First-run output state of `validate_invoice` on `fxDb` (used to
instantiate the idempotence theorem). -/
def fxDb1 : DB :=
  match validate_invoice fxDb 1 77 with
  | some p => p.2
  | none => {}

/-- First-run summary of `validate_invoice` on `fxDb`. -/
def fxS1 : ValidationSummary :=
  match validate_invoice fxDb 1 77 with
  | some p => p.1
  | none => { status := .received, total_lines := 0, match_count := 0,
              mismatch_count := 0, created_price_record_count := 0,
              no_match_count := 0 }

/-- Output of `validate_invoice` on the all-matching state `fxDbA`. -/
def fxValA : ValidationSummary × DB :=
  match validate_invoice fxDbA 1 77 with
  | some p => p
  | none => ({ status := .received, total_lines := 0, match_count := 0,
               mismatch_count := 0, created_price_record_count := 0,
               no_match_count := 0 }, {})

/-- Line at exactly the tolerance boundary: price 10 + 1/10000. -/
def fxLineEps : InvoiceLine :=
  { lid := 1, invoice_id := 1, line_no := 1, sku := some "A",
    unit_price := some (10 + 1/10000) }

/-- Line just inside the tolerance: price 10 + 9/100000. -/
def fxLineEps9 : InvoiceLine :=
  { lid := 1, invoice_id := 1, line_no := 1, sku := some "A",
    unit_price := some (10 + 9/100000) }

/-- Line with unit price exactly zero. -/
def fxLineZero : InvoiceLine :=
  { lid := 1, invoice_id := 1, line_no := 1, sku := some "A",
    unit_price := some 0 }

/-- Both-sku-B state for the learned-price dedup scenario. -/
def fxDb8 : DB :=
  { invoices := [fxInv], lines := [fxLineB, fxLineB2], records := [],
    nextId := 100 }

/-- Output of `validate_invoice` on the two-unknown-sku state `fxDb8`
(both lines take the learned-price path). -/
def fxVal8 : ValidationSummary × DB :=
  match validate_invoice fxDb8 1 0 with
  | some p => p
  | none => ({ status := .received, total_lines := 0, match_count := 0,
               mismatch_count := 0, created_price_record_count := 0,
               no_match_count := 0 }, {})

/-- A pre-existing learned (need_review) record for (S, B). -/
def fxRecNR : PriceRecord :=
  { rid := 70, supplier_name := some "S", sku := some "B",
    status := some "need_review", unit_price := some 20,
    source := some "learned_from_invoice" }

/-- Both-sku-B state where a need_review record for (S, B) already
exists. -/
def fxDb8c : DB :=
  { invoices := [fxInv], lines := [fxLineB, fxLineB2], records := [fxRecNR],
    nextId := 100 }

/-- Manually created invoice carrying the `supplier` column. -/
def fxInvM : Invoice := { iid := 2, supplier := some "ACME", status := .needsReview }

/-- Line of the manual invoice with sku K. -/
def fxLineM : InvoiceLine :=
  { lid := 9, invoice_id := 2, line_no := 1, sku := some "K",
    unit_price := some 5 }

/-- Acceptance state with no open price record for the resolved pair. -/
def fxDbM : DB :=
  { invoices := [fxInvM], lines := [fxLineM], records := [],
    suppliers := [("ACME", 7)], product_mappings := [(7, "K", 3)],
    nextId := 50 }

/-- One open price record for product 3 / supplier 7. -/
def fxRecOpen : PriceRecord :=
  { rid := 40, product_id := some 3, supplier_id := some 7, price := some 4,
    valid_from := some 1, valid_to := none }

/-- Acceptance state with exactly one open record for the pair. -/
def fxDbM2 : DB := { fxDbM with records := [fxRecOpen] }

/-- Output of the acceptance call on `fxDbM2`. -/
def fxAccept : Rat × Int × DB :=
  match accept_price fxDbM2 9 5 100 0 with
  | some r => r
  | none => (0, 0, {})

/-- State for the parse-persistence witness. -/
def fxDb7 : DB := { invoices := [{ iid := 5, status := .received }] }

/-- Two cleaned extracted lines. -/
def fxRaw : List RawLine := [{ line_no := 1 }, { line_no := 2 }]

/-- Stored PDF attachment of the polled message. -/
def fxAtt : Attachment :=
  { aid := "a1", name := "inv.pdf", contentType := "application/pdf",
    size := 100, storage_path := some "p" }

/-- Unread message with one PDF attachment. -/
def fxMsg : MailMessage :=
  { mid := "m1", isRead := false, hasAttachments := true,
    attachments := [fxAtt] }

/-- Polling state holding only `fxMsg`. -/
def fxPoll : PollState :=
  { mail := { messages := [fxMsg] }, db := {}, processed := [],
    max_pdf_size := 1000 }

/-! ## General helper lemmas -/

theorem records_update_invoice_line_status (db : DB) (lid : Nat)
    (st : LineStatus) : (update_invoice_line_status db lid st).records =
      db.records := rfl

theorem records_log_audit (db : DB) (a b : String) :
    (log_audit db a b).records = db.records := rfl

theorem head_filter_update (invoices : List Invoice) (iid : Nat)
    (f : Invoice → Invoice) (hf : ∀ i, (f i).iid = i.iid) :
    ((invoices.map fun i => if i.iid == iid then f i else i).filter
        fun i => i.iid == iid).head? =
      ((invoices.filter fun i => i.iid == iid).head?).map f := by
  induction invoices with
  | nil => rfl
  | cons i is ih =>
    simp only [List.map_cons, List.filter_cons]
    by_cases h : i.iid = iid
    · have hb : (i.iid == iid) = true := by simpa using h
      have hfi : ((f i).iid == iid) = true := by simp [hf, h]
      simp only [hb, if_true, hfi, List.head?_cons, Option.map_some']
    · have hb : (i.iid == iid) = false := by simpa using h
      simp only [hb, Bool.false_eq_true, if_false]
      exact ih

theorem status_overwrite (l : InvoiceLine) (a b : Option LineStatus) :
    ({ { l with status := a } with status := b } : InvoiceLine) =
      { l with status := b } := rfl

theorem some_pair_eq {α β : Type} {a st : α} {b db' : β}
    (h : some (a, b) = some (st, db')) : st = a ∧ db' = b := by
  obtain ⟨h1, h2⟩ := Prod.mk.inj (Option.some.inj h)
  exact ⟨h1.symm, h2.symm⟩

/-! ## C10: zero unit price is treated as missing -/

/-- C10: a line whose unit price is exactly 0 is marked `unknown` by
`_validate_invoice_line` on every path, and no price record is created. -/
theorem C10_zero_price_unknown (db : DB) (l : InvoiceLine)
    (s : Option String) (d : Option Int) (c : Option String)
    (st : LineStatus) (db' : DB)
    (hz : l.unit_price = some 0)
    (h : validate_invoice_line db l s d c = some (st, db')) :
    st = .unknown ∧ db'.records = db.records := by
  have hq : truthyQ l.unit_price = false := by simp [truthyQ, hz]
  unfold validate_invoice_line at h
  split at h
  · unfold resolve_found at h
    split at h
    · simp only [hq, Bool.and_false] at h
      simp only [Bool.false_eq_true, if_false] at h
      obtain ⟨rfl, rfl⟩ := Prod.mk.injEq .. ▸ Option.some.inj h
      exact ⟨rfl, rfl⟩
    · split at h
      · exact absurd h (by simp)
      · simp only [hq] at h
        simp only [Bool.false_eq_true, if_false] at h
        obtain ⟨rfl, rfl⟩ := Prod.mk.injEq .. ▸ Option.some.inj h
        exact ⟨rfl, rfl⟩
  · split at h
    · unfold resolve_found at h
      split at h
      · simp only [hq, Bool.and_false] at h
        simp only [Bool.false_eq_true, if_false] at h
        obtain ⟨rfl, rfl⟩ := Prod.mk.injEq .. ▸ Option.some.inj h
        exact ⟨rfl, rfl⟩
      · split at h
        · exact absurd h (by simp)
        · simp only [hq] at h
          simp only [Bool.false_eq_true, if_false] at h
          obtain ⟨rfl, rfl⟩ := Prod.mk.injEq .. ▸ Option.some.inj h
          exact ⟨rfl, rfl⟩
    · obtain ⟨rfl, rfl⟩ := Prod.mk.injEq .. ▸ Option.some.inj h
      exact ⟨rfl, rfl⟩

/-- Witness for C10 at a concrete zero-priced line. -/
theorem C10_zero_price_unknown_witness :
    ∃ st db', validate_invoice_line fxDbA fxLineZero (some "S") (some 5)
        (some "EUR") = some (st, db') ∧ st = .unknown ∧
      db'.records = fxDbA.records := by
  refine ⟨.unknown,
    (update_invoice_line_status fxDbA 1 .unknown), by decide, ?_⟩
  exact C10_zero_price_unknown fxDbA fxLineZero (some "S") (some 5)
    (some "EUR") .unknown (update_invoice_line_status fxDbA 1 .unknown)
    (by decide) (by decide)

/-! ## C4: strict absolute tolerance -/

/-- C4: for a line with a comparable (nonzero) unit price and a found
reference record, the line resolves to `matched` exactly when the absolute
unit-price difference is strictly below 1/10000, and to `mismatch`
otherwise; in particular a difference of exactly 1/10000 is a mismatch and
9/100000 is a match. -/
theorem C4_tolerance_strict (db : DB) (l : InvoiceLine)
    (s : Option String) (d : Option Int) (c : Option String)
    (rec : PriceRecord) (e a : Rat)
    (hsku : truthyS l.sku = true)
    (hfind : find_buying_price_by_sku db.records s (l.sku.getD "") d =
      some rec)
    (hexp : rec.unit_price = some e)
    (hup : l.unit_price = some a) (ha : a ≠ 0) :
    (validate_invoice_line db l s d c).map Prod.fst =
      some (if |a - e| < (1 : Rat)/10000 then .matched else .mismatch) := by
  have hq : truthyQ l.unit_price = true := by simp [truthyQ, hup, ha]
  have hg : l.unit_price.getD 0 = a := by rw [hup]; rfl
  unfold validate_invoice_line
  rw [hsku, if_pos rfl, hfind]
  simp only [resolve_found, hexp, hq, if_true, hg]
  split <;> rfl

/-- Witness for C4: with reference price 10, a line priced
10 + 1/10000 is a mismatch and a line priced 10 + 9/100000 is a match. -/
theorem C4_tolerance_strict_witness :
    (validate_invoice_line fxDbA fxLineEps (some "S") (some 5)
        (some "EUR")).map Prod.fst = some .mismatch ∧
    (validate_invoice_line fxDbA fxLineEps9 (some "S") (some 5)
        (some "EUR")).map Prod.fst = some .matched := by
  constructor
  · have h := C4_tolerance_strict fxDbA fxLineEps (some "S") (some 5)
      (some "EUR") fxRecA 10 (10 + 1/10000) (by decide) (by decide)
      (by decide) rfl (by norm_num)
    have habs : |(10 + 1/10000 : Rat) - 10| = 1/10000 := by
      rw [show (10 + 1/10000 : Rat) - 10 = 1/10000 from by ring,
        abs_of_nonneg (by norm_num)]
    rwa [habs, if_neg (lt_irrefl _)] at h
  · have h := C4_tolerance_strict fxDbA fxLineEps9 (some "S") (some 5)
      (some "EUR") fxRecA 10 (10 + 9/100000) (by decide) (by decide)
      (by decide) rfl (by norm_num)
    have habs : |(10 + 9/100000 : Rat) - 10| = 9/100000 := by
      rw [show (10 + 9/100000 : Rat) - 10 = 9/100000 from by ring,
        abs_of_nonneg (by norm_num)]
    rwa [habs, if_pos (by norm_num)] at h

/-! ## C5: validity-window bound is closed, not half-open -/

/-- Counterexample to C5 as stated: a record whose `valid_to` equals the
invoice date is returned by the sku lookup, while the claim says such a
record is excluded. -/
theorem C5_half_open_cex :
    find_buying_price_by_sku [fxRecA] (some "S") "A" (some 10) = some fxRecA ∧
    fxRecA.valid_to = some 10 := by decide

/-- C5 (amended): with a known invoice date the candidate filters treat
the validity window as closed on both ends, `valid_from ≤ date` and
`date ≤ valid_to`, a null bound imposing no constraint; with a missing
date all status=active candidates stay eligible; and both find helpers
select the head of exactly these filtered candidates. -/
theorem C5_window_closed (records : List PriceRecord) (s k p : String)
    (d : Int) (r : PriceRecord) (hs : s ≠ "") (hk : k ≠ "") (hp : p ≠ "") :
    (r ∈ date_filter (some d) (sku_candidates records s k) ↔
      r ∈ records ∧ r.supplier_name = some s ∧ r.sku = some k ∧
        r.status = some "active" ∧ (∀ vf, r.valid_from = some vf → vf ≤ d) ∧
        (∀ vt, r.valid_to = some vt → d ≤ vt)) ∧
    (date_filter none (sku_candidates records s k) =
      sku_candidates records s k) ∧
    (find_buying_price_by_sku records (some s) k (some d) =
      (date_filter (some d) (sku_candidates records s k)).head?) ∧
    (find_buying_price_by_sku records (some s) k none =
      (sku_candidates records s k).head?) ∧
    (r ∈ date_filter (some d) (name_match_filter p (name_candidates records s))
      ↔ r ∈ records ∧ r.supplier_name = some s ∧ r.status = some "active" ∧
        (∃ pn, r.product_name = some pn ∧ pn ≠ "" ∧ pn.toLower = p.toLower) ∧
        (∀ vf, r.valid_from = some vf → vf ≤ d) ∧
        (∀ vt, r.valid_to = some vt → d ≤ vt)) ∧
    (find_buying_price_by_product_name records (some s) p (some d) =
      (date_filter (some d) (name_match_filter p
        (name_candidates records s))).head?) := by
  have hdate : ∀ rr : PriceRecord, date_ok d rr = true ↔
      (∀ vf, rr.valid_from = some vf → vf ≤ d) ∧
      (∀ vt, rr.valid_to = some vt → d ≤ vt) := by
    intro rr
    unfold date_ok
    rcases hvf : rr.valid_from with _ | vf <;>
      rcases hvt : rr.valid_to with _ | vt <;> simp
  refine ⟨?_, rfl, ?_, ?_, ?_, ?_⟩
  · simp only [date_filter, sku_candidates, List.mem_filter, hdate,
      Bool.and_eq_true, beq_iff_eq]
    tauto
  · simp [find_buying_price_by_sku, truthyS, hs, hk]
  · simp [find_buying_price_by_sku, truthyS, hs, hk, date_filter]
  · simp only [date_filter, name_match_filter, name_candidates,
      List.mem_filter, hdate, Bool.and_eq_true, beq_iff_eq]
    constructor
    · rintro ⟨⟨⟨hrec, hsup, hact⟩, hname, hlow⟩, hdates⟩
      refine ⟨hrec, hsup, hact, ?_, hdates.1, hdates.2⟩
      rcases hpn : r.product_name with _ | pn
      · rw [hpn] at hname; exact absurd hname (by simp [truthyS])
      · refine ⟨pn, rfl, ?_, ?_⟩
        · rw [hpn] at hname; simpa [truthyS] using hname
        · rw [hpn] at hlow; simpa using hlow
    · rintro ⟨hrec, hsup, hact, ⟨pn, hpn, hne, hlow⟩, h1, h2⟩
      exact ⟨⟨⟨hrec, hsup, hact⟩, by simp [truthyS, hpn, hne],
        by simp [hpn, hlow]⟩, h1, h2⟩
  · simp [find_buying_price_by_product_name, truthyS, hs, hp]

/-- Witness for C5 (amended): a record with `valid_to` equal to the
invoice date is eligible, and with a missing date the filter is the
identity. -/
theorem C5_window_closed_witness :
    fxRecA ∈ date_filter (some 10) (sku_candidates [fxRecA] "S" "A") ∧
    date_filter none (sku_candidates [fxRecA] "S" "A") =
      sku_candidates [fxRecA] "S" "A" := by
  have h := C5_window_closed [fxRecA] "S" "A" "P" 10 fxRecA (by decide)
    (by decide) (by decide)
  refine ⟨h.1.mpr ?_, h.2.1⟩
  refine ⟨by decide, by decide, by decide, by decide, ?_, ?_⟩
  · intro vf hvf
    simp only [fxRecA, Option.some.injEq] at hvf
    omega
  · intro vt hvt
    simp only [fxRecA, Option.some.injEq] at hvt
    omega

/-! ## C9: dispute scope and idempotence -/

theorem foldl_set_no_match (ids : List Nat) (lines : List InvoiceLine) :
    ids.foldl (fun ls lid => ls.map (set_line_no_match lid)) lines =
      lines.map (fun l => if l.lid ∈ ids then { l with status := some .noMatch }
        else l) := by
  induction ids generalizing lines with
  | nil => simp
  | cons i is ih =>
    simp only [List.foldl_cons, ih, List.map_map]
    refine List.map_congr_left fun l _ => ?_
    by_cases h : l.lid = i
    · simp [Function.comp, set_line_no_match, h]
    · have hb : (l.lid == i) = false := by simpa using h
      simp [Function.comp, set_line_no_match, hb, h]

/-- C9: disputing with no line identities changes no line row; disputing
with a target list sets exactly the targeted lines to `no_match` and
leaves every other line untouched; the invoice itself moves to
`disputed`; and re-disputing re-applies the same transition. -/
theorem C9_dispute_scope (db : DB) (iid : Nat) (ids : List Nat) :
    (dispute_invoice db iid []).lines = db.lines ∧
    (dispute_invoice db iid ids).lines = db.lines.map (fun l =>
      if l.lid ∈ ids then { l with status := some .noMatch } else l) ∧
    find_invoice (dispute_invoice db iid ids) iid =
      (find_invoice db iid).map (fun i => { i with status := .disputed }) ∧
    (dispute_invoice (dispute_invoice db iid ids) iid ids).lines =
      (dispute_invoice db iid ids).lines ∧
    (dispute_invoice (dispute_invoice db iid ids) iid ids).invoices =
      (dispute_invoice db iid ids).invoices := by
  have hlines : ∀ d : DB, (dispute_invoice d iid ids).lines =
      d.lines.map (fun l => if l.lid ∈ ids then
        { l with status := some .noMatch } else l) := by
    intro d
    by_cases hids : ids.isEmpty
    · have h0 : ids = [] := List.isEmpty_iff.mp hids
      subst h0
      simp [dispute_invoice, log_audit]
    · have hb : ids.isEmpty = false := by simpa using hids
      simp [dispute_invoice, log_audit, hb, foldl_set_no_match]
  have hinvs : ∀ d : DB, (dispute_invoice d iid ids).invoices =
      d.invoices.map (fun i => if i.iid == iid then
        { i with status := .disputed } else i) := by
    intro d
    by_cases hids : ids.isEmpty
    · simp [dispute_invoice, log_audit, hids]
    · have hb : ids.isEmpty = false := by simpa using hids
      simp [dispute_invoice, log_audit, hb]
  refine ⟨?_, hlines db, ?_, ?_, ?_⟩
  · unfold dispute_invoice
    simp [log_audit]
  · show ((dispute_invoice db iid ids).invoices.filter
        fun i => i.iid == iid).head? = _
    rw [hinvs db]
    exact head_filter_update db.invoices iid
      (fun i => { i with status := .disputed }) (fun _ => rfl)
  · rw [hlines _, hlines db, List.map_map]
    refine List.map_congr_left fun l _ => ?_
    by_cases h : l.lid ∈ ids <;> simp [Function.comp, h]
  · rw [hinvs _, hinvs db, List.map_map]
    refine List.map_congr_left fun i _ => ?_
    by_cases h : i.iid = iid <;> simp [Function.comp, h]

/-! ## C7: parse transition on line-insert success -/

theorem replace_invoice_lines_invoices (db : DB) (iid : Nat)
    (ls : List RawLine) (ok : Nat → Bool) :
    (replace_invoice_lines db iid ls ok).2.invoices = db.invoices := by
  unfold replace_invoice_lines
  by_cases h : ls.isEmpty <;> simp [h]

/-- C7: the persistence tail of `parse_invoice` moves the invoice from
`received` to `parsed` (stamping `parsed_at`) exactly when at least one
cleaned line was successfully inserted; with zero successful inserts the
invoice row is left untouched, still `received`. -/
theorem C7_parse_transition (db : DB) (iid : Nat) (cleaned : List RawLine)
    (ok : Nat → Bool) (now : Int) (inv : Invoice) (cnt : Nat) (db' : DB)
    (hinv : find_invoice db iid = some inv) (hst : inv.status = .received)
    (h : parse_invoice_persist db iid cleaned ok now = (cnt, db')) :
    (0 < cnt → find_invoice db' iid =
      some { inv with status := .parsed, parsed_at := some now }) ∧
    (cnt = 0 → find_invoice db' iid = some inv) ∧
    (0 < cnt ↔ (find_invoice db' iid).map Invoice.status = some .parsed) := by
  have hrep : ∀ d : DB, find_invoice d iid = some inv →
      find_invoice (replace_invoice_lines d iid cleaned ok).2 iid =
        some inv := by
    intro d hd
    show ((replace_invoice_lines d iid cleaned ok).2.invoices.filter
      fun i => i.iid == iid).head? = some inv
    rw [replace_invoice_lines_invoices]
    exact hd
  unfold parse_invoice_persist at h
  by_cases hc : (replace_invoice_lines db iid cleaned ok).1 > 0
  · rw [if_pos hc] at h
    obtain ⟨rfl, rfl⟩ := Prod.mk.injEq .. ▸ h
    have hfi : find_invoice (log_audit (update_invoice_status_to_parsed
        (replace_invoice_lines db iid cleaned ok).2 iid now) "invoice"
        "INVOICE_PARSED") iid =
        some { inv with status := .parsed, parsed_at := some now } := by
      show ((update_invoice_status_to_parsed
        (replace_invoice_lines db iid cleaned ok).2 iid now).invoices.filter
          fun i => i.iid == iid).head? = _
      unfold update_invoice_status_to_parsed
      rw [head_filter_update _ iid
        (fun i => { i with status := .parsed, parsed_at := some now })
        (fun _ => rfl)]
      have := hrep db hinv
      unfold find_invoice at this
      rw [this]
      rfl
    refine ⟨fun _ => hfi, fun h0 => absurd hc (by omega), ?_⟩
    constructor
    · intro _
      rw [hfi]
      rfl
    · intro _
      exact hc
  · rw [if_neg hc] at h
    obtain ⟨rfl, rfl⟩ := Prod.mk.injEq .. ▸ h
    have hfi : find_invoice (log_audit
        (replace_invoice_lines db iid cleaned ok).2 "invoice"
        "INVOICE_PARSED") iid = some inv := hrep db hinv
    refine ⟨fun h0 => absurd h0 hc, fun _ => hfi, ?_⟩
    constructor
    · intro h0
      exact absurd h0 hc
    · intro h0
      rw [hfi] at h0
      simp only [Option.map_some', Option.some.injEq] at h0
      rw [hst] at h0
      exact absurd h0 (by intro hcon; cases hcon)

/-- Witness for C7: two successful inserts move the invoice to parsed;
an all-failing insert oracle leaves it received. -/
theorem C7_parse_transition_witness :
    find_invoice (parse_invoice_persist fxDb7 5 fxRaw (fun _ => true) 9).2 5 =
      some { iid := 5, status := InvStatus.parsed, parsed_at := some 9 } ∧
    find_invoice (parse_invoice_persist fxDb7 5 fxRaw (fun _ => false) 9).2 5 =
      some { iid := 5, status := InvStatus.received } := by
  constructor
  · have h := C7_parse_transition fxDb7 5 fxRaw (fun _ => true) 9
      { iid := 5, status := .received }
      (parse_invoice_persist fxDb7 5 fxRaw (fun _ => true) 9).1
      (parse_invoice_persist fxDb7 5 fxRaw (fun _ => true) 9).2
      (by decide) rfl rfl
    exact h.1 (by decide)
  · have h := C7_parse_transition fxDb7 5 fxRaw (fun _ => false) 9
      { iid := 5, status := .received }
      (parse_invoice_persist fxDb7 5 fxRaw (fun _ => false) 9).1
      (parse_invoice_persist fxDb7 5 fxRaw (fun _ => false) 9).2
      (by decide) rfl rfl
    exact h.2.1 (by decide)

/-! ## C3: processed messages are marked unread, not read -/

/-- C3 (divergence witness): processing the unread message `fxMsg`
succeeds, yet afterwards the provider flag of the message is false
(the PATCH body of `mark_emails_as_read` sets `isRead` to false), so the
message is still returned by the unread fetch. -/
theorem C3_marks_message_unread :
    (process_email fxPoll fxMsg).1 = true ∧
    (process_email fxPoll fxMsg).2.mail.messages.map MailMessage.isRead =
      [false] ∧
    (fetch_emails (process_email fxPoll fxMsg).2.mail 10).map
      MailMessage.mid = ["m1"] := by
  refine ⟨by decide, by decide, by decide⟩

/-! ## Agreement between the stateful validation and its pure status -/

theorem resolve_found_fst (db : DB) (l : InvoiceLine) (s : Option String)
    (d : Option Int) (c : Option String) (f : Option PriceRecord) :
    (resolve_found db l s d c f).map Prod.fst =
      resolve_status_found l s c f := by
  cases f with
  | none =>
    simp only [resolve_found, resolve_status_found]
    split <;> rfl
  | some rec =>
    simp only [resolve_found, resolve_status_found]
    cases rec.unit_price with
    | none => rfl
    | some e =>
      by_cases hq : truthyQ l.unit_price
      · simp only [hq, if_true]
        split <;> rfl
      · have hb : truthyQ l.unit_price = false := by simpa using hq
        simp [hb]

theorem validate_invoice_line_fst (db : DB) (l : InvoiceLine)
    (s : Option String) (d : Option Int) (c : Option String) :
    (validate_invoice_line db l s d c).map Prod.fst =
      resolve_status db.records l s d c := by
  unfold validate_invoice_line resolve_status
  by_cases h1 : truthyS l.sku
  · simp only [h1, if_true]
    exact resolve_found_fst ..
  · have hb1 : truthyS l.sku = false := by simpa using h1
    simp only [hb1, Bool.false_eq_true, if_false]
    by_cases h2 : truthyS l.product_name
    · simp only [h2, if_true]
      exact resolve_found_fst ..
    · have hb2 : truthyS l.product_name = false := by simpa using h2
      simp only [hb2, Bool.false_eq_true, if_false, Option.map_some']

/-! ## The finders read only the active slice of the price book -/

theorem sku_candidates_eq (records : List PriceRecord) (s k : String) :
    sku_candidates records s k = (active_of records).filter
      (fun r => r.supplier_name == some s && r.sku == some k) := by
  unfold sku_candidates active_of
  rw [List.filter_filter]

theorem name_candidates_eq (records : List PriceRecord) (s : String) :
    name_candidates records s = (active_of records).filter
      (fun r => r.supplier_name == some s) := by
  unfold name_candidates active_of
  rw [List.filter_filter]

theorem find_sku_congr (r1 r2 : List PriceRecord) (s : Option String)
    (k : String) (d : Option Int) (h : active_of r1 = active_of r2) :
    find_buying_price_by_sku r1 s k d = find_buying_price_by_sku r2 s k d := by
  unfold find_buying_price_by_sku
  rw [sku_candidates_eq, sku_candidates_eq, h]

theorem find_name_congr (r1 r2 : List PriceRecord) (s : Option String)
    (p : String) (d : Option Int) (h : active_of r1 = active_of r2) :
    find_buying_price_by_product_name r1 s p d =
      find_buying_price_by_product_name r2 s p d := by
  unfold find_buying_price_by_product_name
  rw [name_candidates_eq, name_candidates_eq, h]

theorem resolve_status_records_congr (r1 r2 : List PriceRecord)
    (l : InvoiceLine) (s : Option String) (d : Option Int) (c : Option String)
    (h : active_of r1 = active_of r2) :
    resolve_status r1 l s d c = resolve_status r2 l s d c := by
  unfold resolve_status
  rw [find_sku_congr r1 r2 s (l.sku.getD "") d h,
    find_name_congr r1 r2 s (l.product_name.getD "") d h]

theorem resolve_status_core_congr (records : List PriceRecord)
    (l l' : InvoiceLine) (s : Option String) (d : Option Int)
    (c : Option String) (h : same_core l l') :
    resolve_status records l s d c = resolve_status records l' s d c := by
  obtain ⟨_, _, _, h4, h5, h6, h7⟩ := h
  unfold resolve_status resolve_status_found line_currency_of
  rw [h4, h5, h6, h7]

/-! ## Record-extension facts -/

theorem rec_ext_refl (rs : List PriceRecord) : rec_ext rs rs :=
  ⟨[], by simp, by simp⟩

theorem rec_ext_trans {a b c : List PriceRecord} (h1 : rec_ext a b)
    (h2 : rec_ext b c) : rec_ext a c := by
  obtain ⟨e1, he1, hp1⟩ := h1
  obtain ⟨e2, he2, hp2⟩ := h2
  refine ⟨e1 ++ e2, by rw [he2, he1, List.append_assoc], ?_⟩
  intro r hr
  rcases List.mem_append.mp hr with h | h
  exacts [hp1 r h, hp2 r h]

theorem rec_ext_active {old new : List PriceRecord} (h : rec_ext old new) :
    active_of new = active_of old := by
  obtain ⟨e, he, hp⟩ := h
  rw [he]
  unfold active_of
  rw [List.filter_append]
  have hnil : e.filter (fun r => r.status == some "active") = [] := by
    rw [List.filter_eq_nil_iff]
    intro r hr
    have := (hp r hr).1
    simp [this]
  rw [hnil, List.append_nil]

/-! ## Writes performed by one line validation -/

theorem create_buying_price_record_writes (db : DB) (sup : String)
    (sku pn : Option String) (cur : String) (up : Rat) (vf : Option Int) :
    (create_buying_price_record db sup sku pn cur up vf).2.invoices =
        db.invoices ∧
      (create_buying_price_record db sup sku pn cur up vf).2.lines =
        db.lines ∧
      rec_ext db.records
        (create_buying_price_record db sup sku pn cur up vf).2.records := by
  unfold create_buying_price_record
  split
  · exact ⟨rfl, rfl, rec_ext_refl _⟩
  · refine ⟨rfl, rfl, ⟨_, rfl, ?_⟩⟩
    intro r hr
    simp only [List.mem_singleton] at hr
    subst hr
    exact ⟨rfl, rfl, rfl, rfl⟩

theorem resolve_found_writes (db : DB) (l : InvoiceLine) (s : Option String)
    (d : Option Int) (c : Option String) (f : Option PriceRecord)
    (st : LineStatus) (db' : DB)
    (h : resolve_found db l s d c f = some (st, db')) :
    db'.invoices = db.invoices ∧
      db'.lines = db.lines.map (set_line_status l.lid st) ∧
      rec_ext db.records db'.records := by
  cases f with
  | none =>
    simp only [resolve_found] at h
    split at h
    · obtain ⟨rfl, rfl⟩ := some_pair_eq h
      obtain ⟨hi, hl, hr⟩ := create_buying_price_record_writes db (s.getD "")
        l.sku l.product_name ((line_currency_of l c).getD "")
        (l.unit_price.getD 0) d
      exact ⟨hi, congrArg
        (List.map (set_line_status l.lid .createdPriceRecord)) hl, hr⟩
    · obtain ⟨rfl, rfl⟩ := some_pair_eq h
      exact ⟨rfl, rfl, rec_ext_refl _⟩
  | some rec =>
    simp only [resolve_found] at h
    rcases hrp : rec.unit_price with _ | e
    · simp only [hrp] at h
      exact Option.noConfusion h
    · simp only [hrp] at h
      by_cases hq : truthyQ l.unit_price = true
      · simp only [hq, if_true] at h
        split at h
        · obtain ⟨rfl, rfl⟩ := some_pair_eq h
          exact ⟨rfl, rfl, rec_ext_refl _⟩
        · obtain ⟨rfl, rfl⟩ := some_pair_eq h
          exact ⟨rfl, rfl, rec_ext_refl _⟩
      · have hb : truthyQ l.unit_price = false := by simpa using hq
        simp only [hb, Bool.false_eq_true, if_false] at h
        obtain ⟨rfl, rfl⟩ := some_pair_eq h
        exact ⟨rfl, rfl, rec_ext_refl _⟩

theorem validate_invoice_line_writes (db : DB) (l : InvoiceLine)
    (s : Option String) (d : Option Int) (c : Option String)
    (st : LineStatus) (db' : DB)
    (h : validate_invoice_line db l s d c = some (st, db')) :
    db'.invoices = db.invoices ∧
      db'.lines = db.lines.map (set_line_status l.lid st) ∧
      rec_ext db.records db'.records := by
  unfold validate_invoice_line at h
  split at h
  · exact resolve_found_writes db l s d c _ st db' h
  · split at h
    · exact resolve_found_writes db l s d c _ st db' h
    · obtain ⟨rfl, rfl⟩ := some_pair_eq h
      exact ⟨rfl, rfl, rec_ext_refl _⟩

/-! ## The per-line loop: specification and completeness -/

theorem count_statuses_cons (st : LineStatus) (sts : List LineStatus) :
    count_statuses (st :: sts) = bump (count_statuses sts) st := rfl

theorem validate_lines_spec (s : Option String) (d : Option Int)
    (c : Option String) :
    ∀ (ls : List InvoiceLine) (db : DB) (cnt : Counts) (db' : DB),
    validate_lines db s d c ls = some (cnt, db') →
    ∃ sts : List LineStatus,
      List.Forall₂ (fun l st => resolve_status db.records l s d c = some st)
        ls sts ∧
      cnt = count_statuses sts ∧
      db'.invoices = db.invoices ∧
      rec_ext db.records db'.records ∧
      db'.lines = apply_status_writes
        ((ls.map (fun l => l.lid)).zip sts) db.lines := by
  intro ls
  induction ls with
  | nil =>
    intro db cnt db' h
    simp only [validate_lines] at h
    obtain ⟨rfl, rfl⟩ := some_pair_eq h
    exact ⟨[], .nil, rfl, rfl, rec_ext_refl _, rfl⟩
  | cons l ls ih =>
    intro db cnt db' h
    unfold validate_lines at h
    cases h1 : validate_invoice_line db l s d c with
    | none => rw [h1] at h; exact Option.noConfusion h
    | some p =>
      obtain ⟨st, db1⟩ := p
      simp only [h1] at h
      cases h2 : validate_lines db1 s d c ls with
      | none => simp only [h2] at h; exact Option.noConfusion h
      | some q =>
        obtain ⟨c2, db2⟩ := q
        simp only [h2] at h
        obtain ⟨rfl, rfl⟩ := some_pair_eq h
        obtain ⟨hi1, hl1, hr1⟩ :=
          validate_invoice_line_writes db l s d c st db1 h1
        obtain ⟨sts, hall, hcnt2, hi2, hr2, hl2⟩ := ih db1 c2 _ h2
        refine ⟨st :: sts, ?_, ?_, ?_, ?_, ?_⟩
        · refine List.Forall₂.cons ?_ ?_
          · have hfst := validate_invoice_line_fst db l s d c
            rw [h1] at hfst
            exact hfst.symm
          · refine hall.imp ?_
            intro a b hab
            rw [← resolve_status_records_congr db1.records db.records a s d c
              (rec_ext_active hr1)]
            exact hab
        · rw [hcnt2, count_statuses_cons]
        · rw [hi2, hi1]
        · exact rec_ext_trans hr1 hr2
        · rw [hl2, hl1]
          rfl

theorem validate_lines_complete (s : Option String) (d : Option Int)
    (c : Option String) :
    ∀ (ls : List InvoiceLine) (sts : List LineStatus) (db : DB),
    List.Forall₂ (fun l st => resolve_status db.records l s d c = some st)
      ls sts →
    ∃ db', validate_lines db s d c ls = some (count_statuses sts, db') := by
  intro ls
  induction ls with
  | nil =>
    intro sts db h
    cases h
    exact ⟨db, rfl⟩
  | cons l ls ih =>
    intro sts db h
    cases h with
    | @cons _ st _ sts' hst hrest =>
      have hfst := validate_invoice_line_fst db l s d c
      rw [hst] at hfst
      cases hv : validate_invoice_line db l s d c with
      | none => rw [hv] at hfst; exact Option.noConfusion hfst
      | some p =>
        obtain ⟨st', db1⟩ := p
        rw [hv] at hfst
        have hst' : st' = _ := Option.some.inj hfst
        subst hst'
        obtain ⟨_, _, hr1⟩ :=
          validate_invoice_line_writes db l s d c _ _ hv
        have hall1 : List.Forall₂ (fun l2 st2 =>
            resolve_status db1.records l2 s d c = some st2) ls sts' := by
          refine hrest.imp ?_
          intro a b hab
          rw [resolve_status_records_congr db1.records db.records a s d c
            (rec_ext_active hr1)]
          exact hab
        obtain ⟨db2, hdb2⟩ := ih _ db1 hall1
        refine ⟨db2, ?_⟩
        unfold validate_lines
        simp only [hv, hdb2, count_statuses_cons]

theorem forall2_resolve_unique (A : List PriceRecord) (s : Option String)
    (d : Option Int) (c : Option String) :
    ∀ (ls : List InvoiceLine) (sts1 sts2 : List LineStatus),
    List.Forall₂ (fun l st => resolve_status A l s d c = some st) ls sts1 →
    List.Forall₂ (fun l st => resolve_status A l s d c = some st) ls sts2 →
    sts1 = sts2 := by
  intro ls
  induction ls with
  | nil =>
    intro sts1 sts2 h1 h2
    cases h1
    cases h2
    rfl
  | cons l ls ih =>
    intro sts1 sts2 h1 h2
    cases h1 with
    | cons ha1 hr1 =>
      cases h2 with
      | cons ha2 hr2 =>
        have : _ = _ := Option.some.inj (ha1.symm.trans ha2)
        rw [this, ih _ _ hr1 hr2]

theorem resolve_status_found_ne_noMatch (l : InvoiceLine)
    (s c : Option String) (f : Option PriceRecord) (st : LineStatus)
    (h : resolve_status_found l s c f = some st) : st ≠ .noMatch := by
  cases f with
  | none =>
    simp only [resolve_status_found] at h
    split at h <;>
      · obtain rfl := Option.some.inj h
        intro hcon
        cases hcon
  | some rec =>
    simp only [resolve_status_found] at h
    rcases hrp : rec.unit_price with _ | e
    · simp only [hrp] at h
      exact Option.noConfusion h
    · simp only [hrp] at h
      by_cases hq : truthyQ l.unit_price = true
      · simp only [hq, if_true] at h
        split at h <;>
          · obtain rfl := Option.some.inj h
            intro hcon
            cases hcon
      · have hb : truthyQ l.unit_price = false := by simpa using hq
        simp only [hb, Bool.false_eq_true, if_false] at h
        obtain rfl := Option.some.inj h
        intro hcon
        cases hcon

theorem resolve_status_ne_noMatch (records : List PriceRecord)
    (l : InvoiceLine) (s : Option String) (d : Option Int) (c : Option String)
    (st : LineStatus) (h : resolve_status records l s d c = some st) :
    st ≠ .noMatch := by
  unfold resolve_status at h
  split at h
  · exact resolve_status_found_ne_noMatch l s c _ st h
  · split at h
    · exact resolve_status_found_ne_noMatch l s c _ st h
    · obtain rfl := Option.some.inj h
      intro hcon
      cases hcon

theorem count_statuses_sum (sts : List LineStatus)
    (h : ∀ st ∈ sts, st ≠ LineStatus.noMatch) :
    (count_statuses sts).match_count + (count_statuses sts).mismatch_count +
      (count_statuses sts).created_price_record_count +
      (count_statuses sts).no_match_count = sts.length := by
  induction sts with
  | nil => rfl
  | cons st sts ih =>
    have hst := h st (by simp)
    have ih2 := ih (fun x hx => h x (by simp [hx]))
    rw [count_statuses_cons]
    cases st with
    | noMatch => exact absurd rfl hst
    | matched => simp only [bump, List.length_cons]; omega
    | mismatch => simp only [bump, List.length_cons]; omega
    | createdPriceRecord => simp only [bump, List.length_cons]; omega
    | unknown => simp only [bump, List.length_cons]; omega

/-! ## Status write sequences -/

theorem set_line_status_lid (lid : Nat) (st : LineStatus) (l : InvoiceLine) :
    (set_line_status lid st l).lid = l.lid := by
  unfold set_line_status
  split <;> rfl

theorem same_core_refl (l : InvoiceLine) : same_core l l :=
  ⟨rfl, rfl, rfl, rfl, rfl, rfl, rfl⟩

theorem same_core_trans {a b c : InvoiceLine} (h1 : same_core a b)
    (h2 : same_core b c) : same_core a c := by
  obtain ⟨a1, a2, a3, a4, a5, a6, a7⟩ := h1
  obtain ⟨b1, b2, b3, b4, b5, b6, b7⟩ := h2
  exact ⟨a1.trans b1, a2.trans b2, a3.trans b3, a4.trans b4, a5.trans b5,
    a6.trans b6, a7.trans b7⟩

theorem same_core_set (lid : Nat) (st : LineStatus) (l : InvoiceLine) :
    same_core l (set_line_status lid st l) := by
  unfold set_line_status
  split
  · exact ⟨rfl, rfl, rfl, rfl, rfl, rfl, rfl⟩
  · exact same_core_refl l

theorem apply_status_writes_map (ws : List (Nat × LineStatus))
    (lines : List InvoiceLine) :
    apply_status_writes ws lines = lines.map (apply_writes_line ws) := by
  induction ws generalizing lines with
  | nil =>
    simp only [apply_status_writes]
    exact ((List.map_congr_left fun l _ => rfl).trans
      (List.map_id lines)).symm
  | cons w ws ih =>
    simp only [apply_status_writes, ih, List.map_map]
    exact List.map_congr_left fun l _ => rfl

theorem same_core_apply_writes (ws : List (Nat × LineStatus))
    (l : InvoiceLine) : same_core l (apply_writes_line ws l) := by
  induction ws generalizing l with
  | nil => exact same_core_refl l
  | cons w ws ih =>
    exact same_core_trans (same_core_set w.1 w.2 l) (ih _)

theorem apply_writes_line_eq (ws : List (Nat × LineStatus))
    (l : InvoiceLine) :
    apply_writes_line ws l = match last_write ws l.lid with
      | some st => { l with status := some st }
      | none => l := by
  induction ws generalizing l with
  | nil => rfl
  | cons w ws ih =>
    show apply_writes_line ws (set_line_status w.1 w.2 l) = _
    rw [ih, set_line_status_lid]
    cases hlw : last_write ws l.lid with
    | some st =>
      simp only [last_write, hlw]
      unfold set_line_status
      split <;> rfl
    | none =>
      simp only [last_write, hlw]
      unfold set_line_status
      by_cases hn : l.lid = w.1
      · have h1 : (l.lid == w.1) = true := by simpa using hn
        have h2 : (w.1 == l.lid) = true := by simpa using hn.symm
        simp [h1, h2]
      · have h1 : (l.lid == w.1) = false := by simpa using hn
        have h2 : (w.1 == l.lid) = false := by
          simpa using fun hcon => hn hcon.symm
        simp [h1, h2]

theorem apply_writes_line_idem (ws : List (Nat × LineStatus))
    (l : InvoiceLine) :
    apply_writes_line ws (apply_writes_line ws l) = apply_writes_line ws l := by
  have hlid : (apply_writes_line ws l).lid = l.lid :=
    (same_core_apply_writes ws l).1.symm
  rw [apply_writes_line_eq ws (apply_writes_line ws l), hlid,
    apply_writes_line_eq ws l]
  cases hlw : last_write ws l.lid with
  | some st => rfl
  | none => rfl

/-! ## The line query commutes with per-row maps -/

theorem filter_map_invoice (g : InvoiceLine → InvoiceLine)
    (hg : ∀ l, (g l).invoice_id = l.invoice_id) (xs : List InvoiceLine)
    (iid : Nat) :
    (xs.map g).filter (fun l => l.invoice_id == iid) =
      (xs.filter (fun l => l.invoice_id == iid)).map g := by
  induction xs with
  | nil => rfl
  | cons x xs ih =>
    simp only [List.map_cons, List.filter_cons, hg]
    cases h : (x.invoice_id == iid) <;> simp [h, ih]

theorem insert_map (g : InvoiceLine → InvoiceLine)
    (hg : ∀ l, (g l).line_no = l.line_no) (a : InvoiceLine)
    (xs : List InvoiceLine) :
    insert_by_line_no (g a) (xs.map g) = (insert_by_line_no a xs).map g := by
  induction xs with
  | nil => rfl
  | cons x xs ih =>
    simp only [insert_by_line_no, List.map_cons, hg]
    by_cases h : a.line_no < x.line_no
    · simp [h]
    · simp [h, ih]

theorem sort_map (g : InvoiceLine → InvoiceLine)
    (hg : ∀ l, (g l).line_no = l.line_no) (xs : List InvoiceLine) :
    sort_by_line_no (xs.map g) = (sort_by_line_no xs).map g := by
  induction xs with
  | nil => rfl
  | cons x xs ih =>
    simp only [List.map_cons, sort_by_line_no, ih, insert_map g hg]

theorem lines_of_map (db db' : DB) (iid : Nat) (g : InvoiceLine → InvoiceLine)
    (hlines : db'.lines = db.lines.map g)
    (hgi : ∀ l, (g l).invoice_id = l.invoice_id)
    (hgn : ∀ l, (g l).line_no = l.line_no) :
    lines_of db' iid = (lines_of db iid).map g := by
  unfold lines_of
  rw [hlines, filter_map_invoice g hgi, sort_map g hgn]

/-! ## Invoice-row updates seen through the invoice query -/

theorem find_invoice_log_audit (db : DB) (iid : Nat) (a b : String) :
    find_invoice (log_audit db a b) iid = find_invoice db iid := rfl

theorem find_invoice_update (d : DB) (iid : Nat) (st : InvStatus)
    (va : Option Int) :
    find_invoice (update_invoice_status d iid st va) iid =
      (find_invoice d iid).map (apply_validated_update st va) := by
  unfold find_invoice update_invoice_status
  exact head_filter_update d.invoices iid _ (fun i => by
    cases va <;> rfl)

theorem forall2_mem_right {α β : Type} {R : α → β → Prop} :
    ∀ {l1 : List α} {l2 : List β}, List.Forall₂ R l1 l2 →
    ∀ b ∈ l2, ∃ a ∈ l1, R a b := by
  intro l1 l2 h
  induction h with
  | nil =>
    intro b hb
    exact absurd hb (List.not_mem_nil b)
  | cons hR hrest ih =>
    intro b hb
    rcases List.mem_cons.mp hb with rfl | hb2
    · exact ⟨_, List.mem_cons_self .., hR⟩
    · obtain ⟨a, ha, hr⟩ := ih b hb2
      exact ⟨a, List.mem_cons_of_mem _ ha, hr⟩

/-! ## C1: overall invoice status after validation -/

/-- C1: for an invoice with at least one line, `validate_invoice` reports
and persists `validated` exactly when zero lines resolved to mismatch,
created_price_record or unknown (equivalently: every line resolved to
match), `needs_review` otherwise; `validated_at` is assigned only in the
validated case, the needs_review update leaving the stored value
untouched. -/
theorem C1_validated_iff (db : DB) (iid : Nat) (now : Int)
    (s : ValidationSummary) (db' : DB) (inv : Invoice)
    (hfi : find_invoice db iid = some inv)
    (hne : lines_of db iid ≠ [])
    (h : validate_invoice db iid now = some (s, db')) :
    (s.status = .validated ↔
      s.mismatch_count = 0 ∧ s.created_price_record_count = 0 ∧
        s.no_match_count = 0) ∧
    (s.status = .validated ↔ s.match_count = s.total_lines) ∧
    (s.status = .validated ∨ s.status = .needsReview) ∧
    find_invoice db' iid = some (if s.status = .validated then
      { inv with status := .validated, validated_at := some now }
      else { inv with status := .needsReview }) ∧
    s.validated_at = (if s.status = .validated then some now else none) := by
  have hemp : (lines_of db iid).isEmpty = false := by
    cases hl : lines_of db iid
    · exact absurd hl hne
    · rfl
  unfold validate_invoice at h
  simp only [hfi] at h
  simp only [hemp, Bool.false_eq_true, if_false] at h
  cases hvl : validate_lines db inv.supplier_name inv.invoice_date
      inv.currency (lines_of db iid) with
  | none => simp only [hvl] at h; exact Option.noConfusion h
  | some q =>
    obtain ⟨cnt, dbm⟩ := q
    simp only [hvl] at h
    obtain ⟨hs, hdb'⟩ := some_pair_eq h
    obtain ⟨sts, hall, hcnt, hinvm, hrec, hlm⟩ := validate_lines_spec
      inv.supplier_name inv.invoice_date inv.currency (lines_of db iid) db
      cnt dbm hvl
    have hlen : sts.length = (lines_of db iid).length := hall.length_eq.symm
    have hnomatch : ∀ st ∈ sts, st ≠ LineStatus.noMatch := by
      intro st hst
      obtain ⟨l, _, hres⟩ := forall2_mem_right hall st hst
      exact resolve_status_ne_noMatch _ _ _ _ _ _ hres
    have hsum := count_statuses_sum sts hnomatch
    rw [← hcnt] at hsum
    have hfm : find_invoice dbm iid = some inv := by
      unfold find_invoice
      rw [hinvm]
      exact hfi
    have hstat : s.status = (if cnt.mismatch_count > 0 ||
        cnt.created_price_record_count > 0 || cnt.no_match_count > 0 then
        InvStatus.needsReview else .validated) := by rw [hs]
    have hmat : s.match_count = cnt.match_count := by rw [hs]
    have hmis : s.mismatch_count = cnt.mismatch_count := by rw [hs]
    have hcre : s.created_price_record_count =
      cnt.created_price_record_count := by rw [hs]
    have hnom : s.no_match_count = cnt.no_match_count := by rw [hs]
    have htot : s.total_lines = (lines_of db iid).length := by rw [hs]
    have hva : s.validated_at = (if (if cnt.mismatch_count > 0 ||
        cnt.created_price_record_count > 0 || cnt.no_match_count > 0 then
        InvStatus.needsReview else .validated) == InvStatus.validated then
        some now else none) := by rw [hs]
    by_cases hcond : (cnt.mismatch_count > 0 ||
        cnt.created_price_record_count > 0 || cnt.no_match_count > 0) = true
    · have hst2 : s.status = .needsReview := by rw [hstat, if_pos hcond]
      have hva2 : s.validated_at = none := by
        rw [hva, if_pos hcond]
        rfl
      have hbe : (InvStatus.needsReview == InvStatus.validated) = false := by
        decide
      have hcond2 := hcond
      simp only [Bool.or_eq_true, decide_eq_true_eq] at hcond2
      refine ⟨?_, ?_, Or.inr hst2, ?_, ?_⟩
      · rw [hst2, hmis, hcre, hnom]
        constructor
        · intro hcon
          exact absurd hcon (by decide)
        · rintro ⟨z1, z2, z3⟩
          omega
      · rw [hst2, hmat, htot]
        constructor
        · intro hcon
          exact absurd hcon (by decide)
        · intro hmt
          exfalso
          omega
      · rw [hdb', find_invoice_log_audit]
        simp only [hcond, if_true, hbe, Bool.false_eq_true, if_false]
        rw [find_invoice_update, hfm, hst2,
          if_neg (by decide : ¬(InvStatus.needsReview = .validated))]
        rfl
      · rw [hva2, hst2,
          if_neg (by decide : ¬(InvStatus.needsReview = .validated))]
    · have hbf : (cnt.mismatch_count > 0 ||
          cnt.created_price_record_count > 0 || cnt.no_match_count > 0) =
          false := by simpa using hcond
      have hst2 : s.status = .validated := by rw [hstat, if_neg hcond]
      have hva2 : s.validated_at = some now := by
        rw [hva, if_neg hcond]
        rfl
      have h0 : cnt.mismatch_count = 0 ∧ cnt.created_price_record_count = 0 ∧
          cnt.no_match_count = 0 := by
        by_contra hcon
        exact hcond (by
          simp only [Bool.or_eq_true, decide_eq_true_eq]
          omega)
      obtain ⟨z1, z2, z3⟩ := h0
      have hbe : (InvStatus.validated == InvStatus.validated) = true := by
        decide
      refine ⟨?_, ?_, Or.inl hst2, ?_, ?_⟩
      · rw [hst2, hmis, hcre, hnom]
        exact ⟨fun _ => ⟨z1, z2, z3⟩, fun _ => rfl⟩
      · rw [hst2, hmat, htot]
        exact ⟨fun _ => by omega, fun _ => rfl⟩
      · rw [hdb', find_invoice_log_audit]
        simp only [hbf, Bool.false_eq_true, if_false, hbe, if_true]
        rw [find_invoice_update, hfm, hst2, if_pos rfl]
        rfl
      · rw [hva2, hst2, if_pos rfl]

/-- Witness for C1 on a two-line state where both lines take the
learned-price path, so the invoice goes to needs_review and the stored
validated_at is not assigned. -/
theorem C1_validated_iff_witness :
    fxVal8.1.status = InvStatus.needsReview ∧
    fxVal8.1.validated_at = none ∧
    find_invoice fxVal8.2 1 = some { fxInv with status := .needsReview } := by
  have h := C1_validated_iff fxDb8 1 0 fxVal8.1 fxVal8.2 fxInv (by decide)
    (by decide) (by decide)
  have hnv : fxVal8.1.status ≠ InvStatus.validated := by
    intro hcon
    obtain ⟨z1, z2, z3⟩ := h.1.mp hcon
    exact absurd z2 (by decide)
  have hst : fxVal8.1.status = .needsReview := (h.2.2.1).resolve_left hnv
  refine ⟨hst, ?_, ?_⟩
  · rw [h.2.2.2.2, if_neg hnv]
  · rw [h.2.2.2.1, if_neg hnv]

/-! ## Second-run machinery for idempotence -/

theorem forall2_map_left {α β γ : Type} {R : γ → β → Prop} (g : α → γ) :
    ∀ {ls : List α} {sts : List β},
    List.Forall₂ (fun a b => R (g a) b) ls sts →
    List.Forall₂ R (ls.map g) sts := by
  intro ls sts h
  induction h with
  | nil => exact .nil
  | cons h1 h2 ih =>
    simp only [List.map_cons]
    exact .cons h1 ih

theorem update_fn_fields (st : InvStatus) (va : Option Int) (i : Invoice) :
    (apply_validated_update st va i).supplier_name = i.supplier_name ∧
    (apply_validated_update st va i).invoice_date = i.invoice_date ∧
    (apply_validated_update st va i).currency = i.currency ∧
    (apply_validated_update st va i).status = st := by
  cases va <;> exact ⟨rfl, rfl, rfl, rfl⟩

theorem validate_run2 (db db1 : DB) (iid : Nat) (now2 : Int)
    (inv inv2 : Invoice) (sts : List LineStatus)
    (hall : List.Forall₂ (fun l st => resolve_status db.records l
      inv.supplier_name inv.invoice_date inv.currency = some st)
      (lines_of db iid) sts)
    (hfi1 : find_invoice db1 iid = some inv2)
    (hsup : inv2.supplier_name = inv.supplier_name)
    (hdate : inv2.invoice_date = inv.invoice_date)
    (hcur : inv2.currency = inv.currency)
    (hlines1 : db1.lines = db.lines.map (apply_writes_line
      (((lines_of db iid).map (fun l => l.lid)).zip sts)))
    (hact : active_of db1.records = active_of db.records)
    (hne : (lines_of db iid).isEmpty = false) :
    ∃ db2, validate_invoice db1 iid now2 = some
      ({ status := if (count_statuses sts).mismatch_count > 0 ||
            (count_statuses sts).created_price_record_count > 0 ||
            (count_statuses sts).no_match_count > 0 then
            InvStatus.needsReview else .validated,
         total_lines := (lines_of db iid).length,
         match_count := (count_statuses sts).match_count,
         mismatch_count := (count_statuses sts).mismatch_count,
         created_price_record_count :=
           (count_statuses sts).created_price_record_count,
         no_match_count := (count_statuses sts).no_match_count,
         validated_at := if ((if (count_statuses sts).mismatch_count > 0 ||
            (count_statuses sts).created_price_record_count > 0 ||
            (count_statuses sts).no_match_count > 0 then
            InvStatus.needsReview else InvStatus.validated) ==
            InvStatus.validated) = true then some now2 else none }, db2) ∧
      db2.lines = db1.lines ∧
      (find_invoice db2 iid).map Invoice.status = some
        (if (count_statuses sts).mismatch_count > 0 ||
          (count_statuses sts).created_price_record_count > 0 ||
          (count_statuses sts).no_match_count > 0 then
          InvStatus.needsReview else .validated) := by
  have hgi : ∀ l, (apply_writes_line
      (((lines_of db iid).map (fun l => l.lid)).zip sts) l).invoice_id =
      l.invoice_id := fun l => ((same_core_apply_writes _ l).2.1).symm
  have hgn : ∀ l, (apply_writes_line
      (((lines_of db iid).map (fun l => l.lid)).zip sts) l).line_no =
      l.line_no := fun l => ((same_core_apply_writes _ l).2.2.1).symm
  have hlo : lines_of db1 iid = (lines_of db iid).map (apply_writes_line
      (((lines_of db iid).map (fun l => l.lid)).zip sts)) :=
    lines_of_map db db1 iid _ hlines1 hgi hgn
  have hne2 : (lines_of db1 iid).isEmpty = false := by
    rw [hlo]
    cases hl : lines_of db iid
    · rw [hl] at hne
      exact absurd hne (by decide)
    · rfl
  have hall2 : List.Forall₂ (fun l st => resolve_status db1.records l
      inv2.supplier_name inv2.invoice_date inv2.currency = some st)
      (lines_of db1 iid) sts := by
    rw [hlo, hsup, hdate, hcur]
    apply forall2_map_left
    refine hall.imp ?_
    intro a b hab
    rw [resolve_status_records_congr db1.records db.records _ _ _ _ hact]
    rw [← resolve_status_core_congr db.records a _ _ _ _
      (same_core_apply_writes _ a)]
    exact hab
  obtain ⟨dbm2, hvl2⟩ := validate_lines_complete inv2.supplier_name
    inv2.invoice_date inv2.currency (lines_of db1 iid) sts db1 hall2
  obtain ⟨sts2, hall2b, hcnt2, hinv2, hrec2, hlm2⟩ := validate_lines_spec
    inv2.supplier_name inv2.invoice_date inv2.currency (lines_of db1 iid)
    db1 _ dbm2 hvl2
  have hsts : sts = sts2 := forall2_resolve_unique db1.records
    inv2.supplier_name inv2.invoice_date inv2.currency (lines_of db1 iid)
    sts sts2 hall2 hall2b
  subst hsts
  have hlen2 : (lines_of db1 iid).length = (lines_of db iid).length := by
    rw [hlo, List.length_map]
  have hfm2 : find_invoice dbm2 iid = some inv2 := by
    unfold find_invoice
    rw [hinv2]
    exact hfi1
  refine ⟨log_audit (update_invoice_status dbm2 iid
      (if (count_statuses sts).mismatch_count > 0 ||
        (count_statuses sts).created_price_record_count > 0 ||
        (count_statuses sts).no_match_count > 0 then
        InvStatus.needsReview else .validated)
      (if ((if (count_statuses sts).mismatch_count > 0 ||
        (count_statuses sts).created_price_record_count > 0 ||
        (count_statuses sts).no_match_count > 0 then
        InvStatus.needsReview else InvStatus.validated) ==
        InvStatus.validated) = true then some now2 else none))
      "invoice" "INVOICE_VALIDATED", ?_, ?_, ?_⟩
  · unfold validate_invoice
    simp only [hfi1]
    simp only [hne2, Bool.false_eq_true, if_false]
    simp only [hvl2]
    rw [hlen2]
  · show dbm2.lines = db1.lines
    rw [hlm2]
    have hlid : (lines_of db1 iid).map (fun l => l.lid) =
        (lines_of db iid).map (fun l => l.lid) := by
      rw [hlo, List.map_map]
      exact List.map_congr_left fun l _ =>
        ((same_core_apply_writes _ l).1).symm
    rw [hlid, apply_status_writes_map, hlines1, List.map_map]
    exact List.map_congr_left fun l _ => apply_writes_line_idem _ l
  · rw [find_invoice_log_audit, find_invoice_update, hfm2]
    simp only [Option.map_some']
    exact congrArg some (update_fn_fields _ _ inv2).2.2.2

theorem C6_core (db db1 dbm : DB) (iid : Nat) (now2 : Int) (inv : Invoice)
    (cnt : Counts) (sts : List LineStatus) (ov : InvStatus)
    (va1 : Option Int)
    (hfi : find_invoice db iid = some inv)
    (hempf : (lines_of db iid).isEmpty = false)
    (hall : List.Forall₂ (fun l st => resolve_status db.records l
      inv.supplier_name inv.invoice_date inv.currency = some st)
      (lines_of db iid) sts)
    (hcnt : cnt = count_statuses sts)
    (hinvm : dbm.invoices = db.invoices)
    (hrecm : rec_ext db.records dbm.records)
    (hlm : dbm.lines = apply_status_writes
      (((lines_of db iid).map (fun l => l.lid)).zip sts) db.lines)
    (hdb1 : db1 = log_audit (update_invoice_status dbm iid ov va1)
      "invoice" "INVOICE_VALIDATED") :
    ∃ s2 db2, validate_invoice db1 iid now2 = some (s2, db2) ∧
      s2.status = (if cnt.mismatch_count > 0 ||
        cnt.created_price_record_count > 0 || cnt.no_match_count > 0 then
        InvStatus.needsReview else .validated) ∧
      s2.total_lines = (lines_of db iid).length ∧
      s2.match_count = cnt.match_count ∧
      s2.mismatch_count = cnt.mismatch_count ∧
      s2.created_price_record_count = cnt.created_price_record_count ∧
      s2.no_match_count = cnt.no_match_count ∧
      db2.lines = db1.lines ∧
      (find_invoice db2 iid).map Invoice.status = some
        (if cnt.mismatch_count > 0 || cnt.created_price_record_count > 0 ||
          cnt.no_match_count > 0 then InvStatus.needsReview else
          .validated) ∧
      (find_invoice db1 iid).map Invoice.status = some ov := by
  have hfm : find_invoice dbm iid = some inv := by
    unfold find_invoice
    rw [hinvm]
    exact hfi
  have hfi1 : find_invoice db1 iid =
      some (apply_validated_update ov va1 inv) := by
    rw [hdb1, find_invoice_log_audit, find_invoice_update, hfm]
    rfl
  have hlines1 : db1.lines = db.lines.map (apply_writes_line
      (((lines_of db iid).map (fun l => l.lid)).zip sts)) := by
    rw [hdb1]
    show dbm.lines = _
    rw [hlm, apply_status_writes_map]
  have hact : active_of db1.records = active_of db.records := by
    rw [hdb1]
    show active_of dbm.records = _
    exact rec_ext_active hrecm
  obtain ⟨db2, hrun, hdl, hstat2⟩ := validate_run2 db db1 iid now2 inv
    _ sts hall hfi1 (update_fn_fields ov va1 inv).1
    (update_fn_fields ov va1 inv).2.1
    (update_fn_fields ov va1 inv).2.2.1 hlines1 hact hempf
  refine ⟨_, db2, hrun, ?_, rfl, ?_, ?_, ?_, ?_, hdl, ?_, ?_⟩
  · rw [hcnt]
  · rw [hcnt]
  · rw [hcnt]
  · rw [hcnt]
  · rw [hcnt]
  · rw [hstat2, hcnt]
  · rw [hfi1]
    simp only [Option.map_some']
    exact congrArg some (update_fn_fields ov va1 inv).2.2.2

/-! ## C6: validation is idempotent -/

/-- C6: running `validate_invoice` a second time on the state produced by
a first run (with no external change in between) succeeds and yields the
same overall status, the same summary counts, identical stored line rows
(hence identical per-line statuses), and the same stored invoice
status. -/
theorem C6_validate_idempotent (db : DB) (iid : Nat) (now1 now2 : Int)
    (s1 : ValidationSummary) (db1 : DB)
    (h1 : validate_invoice db iid now1 = some (s1, db1)) :
    ∃ s2 db2, validate_invoice db1 iid now2 = some (s2, db2) ∧
      s2.status = s1.status ∧ s2.total_lines = s1.total_lines ∧
      s2.match_count = s1.match_count ∧
      s2.mismatch_count = s1.mismatch_count ∧
      s2.created_price_record_count = s1.created_price_record_count ∧
      s2.no_match_count = s1.no_match_count ∧
      db2.lines = db1.lines ∧
      (find_invoice db2 iid).map Invoice.status =
        (find_invoice db1 iid).map Invoice.status := by
  unfold validate_invoice at h1
  cases hfi : find_invoice db iid with
  | none =>
    simp only [hfi] at h1
    exact Option.noConfusion h1
  | some inv =>
    simp only [hfi] at h1
    by_cases hemp : (lines_of db iid).isEmpty = true
    · simp only [hemp, if_true] at h1
      obtain ⟨hs1, hdb1⟩ := some_pair_eq h1
      have hfi1 : find_invoice db1 iid =
          some { inv with status := .needsReview } := by
        rw [hdb1, find_invoice_log_audit, find_invoice_update, hfi]
        rfl
      have hlo1 : lines_of db1 iid = lines_of db iid := by
        unfold lines_of
        rw [hdb1]
        rfl
      have hemp1 : (lines_of db1 iid).isEmpty = true := by
        rw [hlo1]
        exact hemp
      refine ⟨⟨.needsReview, 0, 0, 0, 0, 0, none⟩,
        log_audit (update_invoice_status db1 iid .needsReview none)
          "invoice" "MARKED_NEED_REVIEW", ?_, ?_, ?_, ?_, ?_, ?_, ?_, ?_, ?_⟩
      · unfold validate_invoice
        simp only [hfi1]
        simp only [hemp1, if_true]
      · rw [hs1]
      · rw [hs1]
      · rw [hs1]
      · rw [hs1]
      · rw [hs1]
      · rw [hs1]
      · rfl
      · rw [find_invoice_log_audit, find_invoice_update, hfi1]
        rfl
    · have hempf : (lines_of db iid).isEmpty = false := by simpa using hemp
      simp only [hempf, Bool.false_eq_true, if_false] at h1
      cases hvl : validate_lines db inv.supplier_name inv.invoice_date
          inv.currency (lines_of db iid) with
      | none =>
        simp only [hvl] at h1
        exact Option.noConfusion h1
      | some q =>
        obtain ⟨cnt, dbm⟩ := q
        simp only [hvl] at h1
        obtain ⟨hs1, hdb1⟩ := some_pair_eq h1
        obtain ⟨sts, hall, hcnt, hinvm, hrecm, hlm⟩ := validate_lines_spec
          inv.supplier_name inv.invoice_date inv.currency (lines_of db iid)
          db cnt dbm hvl
        obtain ⟨s2, db2, hrun, hst, htot, hm, hmm, hcr, hnm, hdl, hstat2,
          hstat1⟩ := C6_core db db1 dbm iid now2 inv cnt sts _ _ hfi hempf
          hall hcnt hinvm hrecm hlm hdb1
        refine ⟨s2, db2, hrun, ?_, ?_, ?_, ?_, ?_, ?_, hdl, ?_⟩
        · rw [hst, hs1]
        · rw [htot, hs1]
        · rw [hm, hs1]
        · rw [hmm, hs1]
        · rw [hcr, hs1]
        · rw [hnm, hs1]
        · rw [hstat2, hstat1]


/-- Witness for C6: re-validating the learned-price state yields the same
summary, line rows and invoice status. -/
theorem C6_validate_idempotent_witness :
    ∃ s2 db2, validate_invoice fxVal8.2 1 99 = some (s2, db2) ∧
      s2.status = fxVal8.1.status ∧ s2.total_lines = fxVal8.1.total_lines ∧
      s2.match_count = fxVal8.1.match_count ∧
      s2.mismatch_count = fxVal8.1.mismatch_count ∧
      s2.created_price_record_count =
        fxVal8.1.created_price_record_count ∧
      s2.no_match_count = fxVal8.1.no_match_count ∧
      db2.lines = fxVal8.2.lines ∧
      (find_invoice db2 1).map Invoice.status =
        (find_invoice fxVal8.2 1).map Invoice.status :=
  C6_validate_idempotent fxDb8 1 0 99 fxVal8.1 fxVal8.2 (by decide)

/-! ## C8: learned-price deduplication -/

theorem pair_snd (a : Nat) (d : DB) : ((a, d) : Nat × DB).2 = d := rfl

theorem sku_candidates_append (r1 r2 : List PriceRecord) (s k : String) :
    sku_candidates (r1 ++ r2) s k =
      sku_candidates r1 s k ++ sku_candidates r2 s k := by
  unfold sku_candidates
  exact List.filter_append r1 r2

theorem need_review_candidates_append (r1 r2 : List PriceRecord)
    (s : String) (sku : Option String) :
    need_review_candidates (r1 ++ r2) s sku =
      need_review_candidates r1 s sku ++ need_review_candidates r2 s sku := by
  unfold need_review_candidates
  exact List.filter_append r1 r2

theorem find_sku_none (records : List PriceRecord) (sname k : String)
    (d : Option Int) (hs : sname ≠ "") (hk : k ≠ "")
    (hact : sku_candidates records sname k = []) :
    find_buying_price_by_sku records (some sname) k d = none := by
  unfold find_buying_price_by_sku
  have hg : (!truthyS (some sname) || (k == "")) = false := by
    simp [truthyS, hs, hk]
  simp only [hg, Bool.false_eq_true, if_false, Option.getD_some]
  rw [hact]
  cases d <;> rfl

theorem create_learned (db : DB) (sname : String) (sku0 : Option String)
    (k : String) (pn : Option String) (cur : String) (p : Rat)
    (vf : Option Int) (hsku : sku0 = some k) (hkne : k ≠ "")
    (hnr : need_review_candidates db.records sname sku0 = []) :
    create_buying_price_record db sname sku0 pn cur p vf =
      (db.nextId, learned_insert db (learned_record db sname sku0 pn cur p
        vf)) := by
  subst hsku
  unfold create_buying_price_record
  rw [show truthyS (some k) = true from by simp [truthyS, hkne],
    if_pos rfl, hnr]
  rfl

theorem create_dedup (db : DB) (sname : String) (sku0 : Option String)
    (k : String) (pn : Option String) (cur : String) (p : Rat)
    (vf : Option Int) (r : PriceRecord) (rest : List PriceRecord)
    (hsku : sku0 = some k) (hkne : k ≠ "")
    (hnr : need_review_candidates db.records sname sku0 = r :: rest) :
    create_buying_price_record db sname sku0 pn cur p vf = (r.rid, db) := by
  subst hsku
  unfold create_buying_price_record
  rw [show truthyS (some k) = true from by simp [truthyS, hkne],
    if_pos rfl, hnr]
  rfl

theorem validate_line_learned (db : DB) (l : InvoiceLine)
    (sname : Option String) (d : Option Int) (c : Option String)
    (hsku : truthyS l.sku = true)
    (hfindnone : find_buying_price_by_sku db.records sname (l.sku.getD "")
      d = none)
    (hcond : (truthyS sname && (truthyS l.sku || truthyS l.product_name) &&
      truthyS (line_currency_of l c) && truthyQ l.unit_price) = true) :
    validate_invoice_line db l sname d c = some (.createdPriceRecord,
      log_audit (update_invoice_line_status
        (create_buying_price_record db (sname.getD "") l.sku l.product_name
          ((line_currency_of l c).getD "") (l.unit_price.getD 0) d).2
        l.lid .createdPriceRecord) "buying_price_record"
      "PRICE_RECORD_CREATED") := by
  unfold validate_invoice_line
  rw [hsku, if_pos rfl, hfindnone]
  simp only [resolve_found]
  rw [hcond, if_pos rfl]

/-- C8 (amended): with no active and no need_review record for the
(supplier, sku) pair, validating an invoice whose two lines both carry
that sku, a truthy currency and a nonzero unit price creates exactly one
need_review record, sourced learned_from_invoice: the first line inserts
it and the second line deduplicates against it instead of inserting a
second one. -/
theorem C8_learned_price_dedup (db : DB) (iid : Nat) (now : Int)
    (inv : Invoice) (l1 l2 : InvoiceLine) (sname k cur1 cur2 : String)
    (p1 p2 : Rat)
    (hfi : find_invoice db iid = some inv)
    (hsup : inv.supplier_name = some sname) (hsne : sname ≠ "")
    (hlines : lines_of db iid = [l1, l2])
    (hk1 : l1.sku = some k) (hk2 : l2.sku = some k) (hkne : k ≠ "")
    (hp1 : l1.unit_price = some p1) (hp1ne : p1 ≠ 0)
    (hp2 : l2.unit_price = some p2) (hp2ne : p2 ≠ 0)
    (hc1 : line_currency_of l1 inv.currency = some cur1) (hc1ne : cur1 ≠ "")
    (hc2 : line_currency_of l2 inv.currency = some cur2) (hc2ne : cur2 ≠ "")
    (hact : sku_candidates db.records sname k = [])
    (hnr : need_review_candidates db.records sname (some k) = []) :
    ∃ s db', validate_invoice db iid now = some (s, db') ∧
      s.created_price_record_count = 2 ∧ s.status = .needsReview ∧
      db'.records = db.records ++ [learned_record db sname (some k)
        l1.product_name cur1 p1 inv.invoice_date] ∧
      (need_review_candidates db'.records sname (some k)).length = 1 := by
  have htr1 : truthyS l1.sku = true := by
    rw [hk1]
    simp [truthyS, hkne]
  have htr2 : truthyS l2.sku = true := by
    rw [hk2]
    simp [truthyS, hkne]
  have hfind1 : find_buying_price_by_sku db.records inv.supplier_name
      (l1.sku.getD "") inv.invoice_date = none := by
    rw [hk1]
    simp only [Option.getD_some]
    rw [hsup]
    exact find_sku_none db.records sname k inv.invoice_date hsne hkne hact
  have hcond1 : (truthyS inv.supplier_name &&
      (truthyS l1.sku || truthyS l1.product_name) &&
      truthyS (line_currency_of l1 inv.currency) &&
      truthyQ l1.unit_price) = true := by
    rw [hsup, hk1, hc1, hp1]
    simp [truthyS, truthyQ, hsne, hkne, hc1ne, hp1ne]
  have h1a := validate_line_learned db l1 inv.supplier_name inv.invoice_date
    inv.currency htr1 hfind1 hcond1
  rw [hsup, hc1, hp1, hk1] at h1a
  simp only [Option.getD_some] at h1a
  rw [create_learned db sname (some k) k l1.product_name cur1 p1
    inv.invoice_date rfl hkne hnr, pair_snd] at h1a
  have hact2 : sku_candidates (learned_insert db (learned_record db sname
      (some k) l1.product_name cur1 p1 inv.invoice_date)).records sname k =
      [] := by
    show sku_candidates (db.records ++ [learned_record db sname (some k)
      l1.product_name cur1 p1 inv.invoice_date]) sname k = []
    rw [sku_candidates_append, hact]
    unfold sku_candidates learned_record
    simp only [List.filter_cons, List.filter_nil]
    rw [show ((some "need_review" : Option String) == some "active") =
      false from by decide]
    simp
  have hnr2 : need_review_candidates (learned_insert db (learned_record db
      sname (some k) l1.product_name cur1 p1 inv.invoice_date)).records
      sname (some k) = [learned_record db sname (some k) l1.product_name
      cur1 p1 inv.invoice_date] := by
    show need_review_candidates (db.records ++ [learned_record db sname
      (some k) l1.product_name cur1 p1 inv.invoice_date]) sname (some k) = _
    rw [need_review_candidates_append, hnr, List.nil_append]
    unfold need_review_candidates learned_record
    simp only [List.filter_cons, List.filter_nil]
    simp
  have hfind2 : find_buying_price_by_sku (log_audit
      (update_invoice_line_status (learned_insert db (learned_record db
        sname (some k) l1.product_name cur1 p1 inv.invoice_date)) l1.lid
        .createdPriceRecord) "buying_price_record"
      "PRICE_RECORD_CREATED").records inv.supplier_name (l2.sku.getD "")
      inv.invoice_date = none := by
    rw [hk2]
    simp only [Option.getD_some]
    rw [hsup]
    exact find_sku_none _ sname k inv.invoice_date hsne hkne hact2
  have hcond2 : (truthyS inv.supplier_name &&
      (truthyS l2.sku || truthyS l2.product_name) &&
      truthyS (line_currency_of l2 inv.currency) &&
      truthyQ l2.unit_price) = true := by
    rw [hsup, hk2, hc2, hp2]
    simp [truthyS, truthyQ, hsne, hkne, hc2ne, hp2ne]
  have h2a := validate_line_learned (log_audit
    (update_invoice_line_status (learned_insert db (learned_record db sname
      (some k) l1.product_name cur1 p1 inv.invoice_date)) l1.lid
      .createdPriceRecord) "buying_price_record" "PRICE_RECORD_CREATED") l2
    inv.supplier_name inv.invoice_date inv.currency htr2 hfind2 hcond2
  rw [hsup, hc2, hp2, hk2] at h2a
  simp only [Option.getD_some] at h2a
  rw [create_dedup (log_audit (update_invoice_line_status (learned_insert
      db (learned_record db sname (some k) l1.product_name cur1 p1
        inv.invoice_date)) l1.lid .createdPriceRecord)
      "buying_price_record" "PRICE_RECORD_CREATED") sname (some k) k
    l2.product_name cur2 p2 inv.invoice_date (learned_record db sname
      (some k) l1.product_name cur1 p1 inv.invoice_date) [] rfl hkne hnr2,
    pair_snd] at h2a
  have hvl : validate_lines db inv.supplier_name inv.invoice_date
      inv.currency [l1, l2] = some
      ({ match_count := 0, mismatch_count := 0,
         created_price_record_count := 2, no_match_count := 0 },
       log_audit (update_invoice_line_status (log_audit
         (update_invoice_line_status (learned_insert db (learned_record db
           sname (some k) l1.product_name cur1 p1 inv.invoice_date)) l1.lid
           .createdPriceRecord) "buying_price_record"
         "PRICE_RECORD_CREATED") l2.lid .createdPriceRecord)
         "buying_price_record" "PRICE_RECORD_CREATED") := by
    rw [hsup]
    simp only [validate_lines, h1a, h2a]
    rfl
  refine ⟨⟨.needsReview, 2, 0, 0, 2, 0, none⟩,
    log_audit (update_invoice_status (log_audit (update_invoice_line_status
      (log_audit (update_invoice_line_status (learned_insert db
        (learned_record db sname (some k) l1.product_name cur1 p1
          inv.invoice_date)) l1.lid .createdPriceRecord)
      "buying_price_record" "PRICE_RECORD_CREATED") l2.lid
      .createdPriceRecord) "buying_price_record" "PRICE_RECORD_CREATED")
      iid .needsReview none) "invoice" "INVOICE_VALIDATED",
    ?_, rfl, rfl, ?_, ?_⟩
  · unfold validate_invoice
    simp only [hfi]
    rw [hlines]
    simp only [List.isEmpty_cons, Bool.false_eq_true, if_false]
    rw [hvl]
    rfl
  · rfl
  · show (need_review_candidates (learned_insert db (learned_record db
      sname (some k) l1.product_name cur1 p1 inv.invoice_date)).records
      sname (some k)).length = 1
    rw [hnr2]
    rfl


/-- Witness for C8: concrete two-unknown-sku state.  Both lines carry sku
B with supplier S, currency EUR and price 20; no record exists, one
learned record results. -/
theorem C8_learned_price_dedup_witness :
    ∃ s db', validate_invoice fxDb8 1 0 = some (s, db') ∧
      s.created_price_record_count = 2 ∧ s.status = .needsReview ∧
      db'.records = fxDb8.records ++ [learned_record fxDb8 "S" (some "B")
        fxLineB.product_name "EUR" 20 fxInv.invoice_date] ∧
      (need_review_candidates db'.records "S" (some "B")).length = 1 :=
  C8_learned_price_dedup fxDb8 1 0 fxInv fxLineB fxLineB2 "S" "B" "EUR"
    "EUR" 20 20 (by decide) (by decide) (by decide) (by decide) (by decide)
    (by decide) (by decide) (by decide) (by decide) (by decide) (by decide)
    (by decide) (by decide) (by decide) (by decide) (by decide) (by decide)

/-- Counterexample to C8 as stated: its only premise is the absence of an
ACTIVE record for the (supplier, sku) pair.  When a need_review record
for the pair already exists (`fxDb8c`), both lines deduplicate against it
and validation creates ZERO new records, not exactly one: the record list
is unchanged (still just the pre-existing `fxRecNR`) even though both
lines report the created_price_record outcome. -/
theorem C8_preexisting_need_review_cex :
    sku_candidates fxDb8c.records "S" "B" = [] ∧
    (validate_invoice fxDb8c 1 0).map
      (fun p => (p.1.created_price_record_count, p.2.records)) =
      some (2, [fxRecNR]) ∧
    fxDb8c.records = [fxRecNR] := by decide

/-! ## C2: price supersession by accept_price -/

theorem accept_price_writes_records (db : DB) (pid sid : Nat) (newp : Rat)
    (vf : Int) : (accept_price_writes db pid sid newp vf).records =
      (db.records.map fun r =>
        if r.product_id == some pid && r.supplier_id == some sid &&
            r.valid_to == none
        then { r with valid_to := some vf } else r) ++
      [{ rid := db.nextId, product_id := some pid, supplier_id := some sid,
         price := some newp, valid_from := some vf, valid_to := none }] :=
  rfl

theorem closed_map_no_open (db : DB) (pid sid : Nat) (vf : Int) :
    (db.records.map fun r =>
      if r.product_id == some pid && r.supplier_id == some sid &&
          r.valid_to == none
      then { r with valid_to := some vf } else r).filter (fun r =>
        r.product_id == some pid && r.supplier_id == some sid &&
        r.valid_to == none) = [] := by
  rw [List.filter_eq_nil_iff]
  intro a ha
  rw [List.mem_map] at ha
  obtain ⟨r, hr, rfl⟩ := ha
  by_cases hc : (r.product_id == some pid && r.supplier_id == some sid &&
      r.valid_to == none) = true
  · rw [if_pos hc]
    simp
  · rw [if_neg hc]
    exact hc

/-- C2 (amended): a successful `accept_price` call closes EVERY
previously-open price-book record of the resolved (product, supplier)
pair - zero, one or many, each getting `valid_to = validFrom` - leaves
the other records untouched, inserts exactly one new open-ended record at
the new price (afterwards it is the only open record of the pair), and
re-runs `validate_invoice` on the owning invoice; the returned state is
the re-validated one. -/
theorem C2_accept_price_supersedes (db : DB) (lid : Nat) (newp : Rat)
    (vf now : Int) (line : InvoiceLine) (sid pid : Nat)
    (res : Rat × Int × DB)
    (hline : (db.lines.filter fun l => l.lid == lid).head? = some line)
    (hsup : get_supplier_id_by_name db
      ((find_invoice db line.invoice_id).bind Invoice.supplier) = some sid)
    (hprod : find_product_by_sku db line.sku sid = some pid)
    (h : accept_price db lid newp vf now = some res) :
    res.1 = newp ∧ res.2.1 = vf ∧
    (∃ s, validate_invoice (accept_price_writes db pid sid newp vf)
        line.invoice_id now = some (s, res.2.2)) ∧
    (∀ r ∈ db.records,
      (r.product_id == some pid && r.supplier_id == some sid &&
        r.valid_to == none) = true →
      { r with valid_to := some vf } ∈
        (accept_price_writes db pid sid newp vf).records) ∧
    (∀ r ∈ db.records,
      (r.product_id == some pid && r.supplier_id == some sid &&
        r.valid_to == none) = false →
      r ∈ (accept_price_writes db pid sid newp vf).records) ∧
    (accept_price_writes db pid sid newp vf).records.filter (fun r =>
        r.product_id == some pid && r.supplier_id == some sid &&
        r.valid_to == none) =
      [{ rid := db.nextId, product_id := some pid, supplier_id := some sid,
         price := some newp, valid_from := some vf, valid_to := none }] := by
  unfold accept_price at h
  simp only [hline] at h
  simp only [hsup] at h
  simp only [hprod] at h
  cases hv : validate_invoice (accept_price_writes db pid sid newp vf)
      line.invoice_id now with
  | none =>
    rw [hv] at h
    exact absurd h (by simp)
  | some p =>
    rw [hv] at h
    obtain ⟨s, db3⟩ := p
    simp only [Option.some.injEq] at h
    refine ⟨?_, ?_, ⟨s, ?_⟩, ?_, ?_, ?_⟩
    · rw [← h]
    · rw [← h]
    · rw [← h]
    · intro r hr hc
      rw [accept_price_writes_records]
      refine List.mem_append_left _ (List.mem_map.mpr ⟨r, hr, ?_⟩)
      rw [if_pos hc]
    · intro r hr hc
      rw [accept_price_writes_records]
      refine List.mem_append_left _ (List.mem_map.mpr ⟨r, hr, ?_⟩)
      rw [if_neg]
      rw [hc]
      exact Bool.false_ne_true
    · rw [accept_price_writes_records, List.filter_append,
        closed_map_no_open, List.nil_append, List.filter_cons]
      simp

/-- Witness for C2: accepting price 5 effective from day 100 on line 9 of
the manual invoice, with one open record (`fxRecOpen`) for the pair
(product 3, supplier 7): the open record is closed at 100, the new open
record is the only remaining open one, and the invoice is re-validated. -/
theorem C2_accept_price_supersedes_witness :
    fxAccept.1 = 5 ∧ fxAccept.2.1 = 100 ∧
    (∃ s, validate_invoice (accept_price_writes fxDbM2 3 7 5 100)
        fxLineM.invoice_id 0 = some (s, fxAccept.2.2)) ∧
    (∀ r ∈ fxDbM2.records,
      (r.product_id == some 3 && r.supplier_id == some 7 &&
        r.valid_to == none) = true →
      { r with valid_to := some 100 } ∈
        (accept_price_writes fxDbM2 3 7 5 100).records) ∧
    (∀ r ∈ fxDbM2.records,
      (r.product_id == some 3 && r.supplier_id == some 7 &&
        r.valid_to == none) = false →
      r ∈ (accept_price_writes fxDbM2 3 7 5 100).records) ∧
    (accept_price_writes fxDbM2 3 7 5 100).records.filter (fun r =>
        r.product_id == some 3 && r.supplier_id == some 7 &&
        r.valid_to == none) =
      [{ rid := fxDbM2.nextId, product_id := some 3, supplier_id := some 7,
         price := some 5, valid_from := some 100, valid_to := none }] :=
  C2_accept_price_supersedes fxDbM2 9 5 100 0 fxLineM 7 3 fxAccept
    (by decide) (by decide) (by decide) (by decide)

/-- Counterexample to C2 as stated: `accept_price` does not require a
previously-open record for the pair.  On `fxDbM` there are NO price
records at all, yet the acceptance succeeds and the final state carries
exactly the one newly inserted record - zero records were closed, so
"exactly one previously-open record is closed" fails for this successful
call. -/
theorem C2_no_open_record_cex :
    fxDbM.records = [] ∧
    (accept_price fxDbM 9 5 100 0).map
      (fun r => (r.2.2).records.length) = some 1 := by decide

end InvoiceProc
